import Mathlib

/-!
# Verification of the `openai-realtime-api` conversation engine and client

Shallow embedding of the repository's `RealtimeConversation` class
(`src/conversation.ts`), the relevant parts of `RealtimeClient`
(`src/client.ts`) and the helpers of `src/utils.ts`.

Modelling conventions:
* JavaScript `Record<string, T>` objects are modelled as association lists
  `List (String × T)` with JS semantics: assignment replaces the value of an
  existing key in place, `delete` removes the key.  (JS records never hold a
  duplicate key, so removing every occurrence of the key coincides with
  removing the single occurrence.)
* `Int16Array` sample buffers are modelled as `List Int` of decoded samples.
* Exceptions (`assert` / `throw new Error`) become `Except String`; every
  processor of the source throws before performing any state mutation, and the
  embedding mirrors that order, so an `Except.error` result carries no
  successor state.
* The source mutates item/response objects that are referenced from both the
  id-keyed lookup and the ordered list; the pure embedding applies each such
  mutation to both containers (`updateItemEverywhere`,
  `updateResponseEverywhere`).
* Numbers coming from the wire (`audio_start_ms`, sample counts, indices) are
  modelled as `Nat`; `Math.floor` of products/quotients of non-negative
  numbers is exact `Nat` division.
-/

/-- JS coercion used by string concatenation: `undefined + "x" = "undefinedx"`.
A missing (`undefined`) string field is `none`. -/
def jsStr : Option String → String
  | some s => s
  | none => "undefined"

/-- `Record` lookup: `rec[k]`, `undefined` when the key is absent. -/
def lookupRec {α : Type} : List (String × α) → String → Option α
  | [], _ => none
  | (k', v) :: rest, k => if k' = k then some v else lookupRec rest k

/-- `Record` assignment `rec[k] = v`: replaces the value of an existing key in
place, otherwise appends the new key. -/
def setRec {α : Type} : List (String × α) → String → α → List (String × α)
  | [], k, v => [(k, v)]
  | (k', v') :: rest, k, v =>
    if k' = k then (k, v) :: rest else (k', v') :: setRec rest k v

/-- `delete rec[k]`: removes the key (JS records hold each key once; removing
every occurrence coincides with that on well-formed records). -/
def deleteRec {α : Type} : List (String × α) → String → List (String × α)
  | [], _ => []
  | (k', v') :: rest, k =>
    if k' = k then deleteRec rest k else (k', v') :: deleteRec rest k

/-- `Int16Array.slice(a, b)` for non-negative indices (clamped at the ends). -/
def jsSlice (l : List Int) (a b : Nat) : List Int := (l.take b).drop a

/-- One content part (`Realtime.ContentPart`, `src/types.ts`): all four
variants extend `BaseContentPart`, whose `text` / `audio` / `transcript`
fields are optional, so a part is one record with a `type` tag. -/
structure ContentPart where
  type : String
  text : Option String := none
  audio : Option String := none
  transcript : Option String := none
deriving DecidableEq

/-- `FormattedTool` (`src/types.ts`); the constant `type: 'function'` tag is
omitted. -/
structure FormattedTool where
  name : String
  call_id : String
  arguments : String
deriving DecidableEq

/-- `FormattedProperty` (`src/types.ts`): the flattened projection attached to
every stored item. -/
structure Formatted where
  audio : List Int
  text : String
  transcript : String
  tool : Option FormattedTool := none
  output : Option String := none
deriving DecidableEq

/-- A server-sent conversation item payload (`Realtime.Item`).  The
function-call fields (`name`, `call_id`, `output`, `arguments`) are declared
on the respective variants of the TS union; the merged record defaults them
to `""`. -/
structure ItemPayload where
  id : String
  type : String
  status : String
  role : String
  content : List ContentPart
  name : String := ""
  call_id : String := ""
  output : String := ""
  arguments : String := ""
deriving DecidableEq

/-- `FormattedItem` (`src/types.ts`): an item plus its formatted projection. -/
structure FormattedItem where
  id : String
  type : String
  status : String
  role : String
  content : List ContentPart
  name : String := ""
  call_id : String := ""
  output : String := ""
  arguments : String := ""
  formatted : Formatted
deriving DecidableEq

/-- `Realtime.Response`, restricted to the fields the engine reads/writes. -/
structure Response where
  id : String
  status : String
  output : List ItemPayload
deriving DecidableEq

/-- An entry of `queuedSpeechItems`. -/
structure SpeechItem where
  audio_start_ms : Nat
  audio_end_ms : Option Nat := none
  audio : Option (List Int) := none
deriving DecidableEq

/-- The mutable state of a `RealtimeConversation` (`src/conversation.ts`). -/
structure ConvState where
  frequency : Nat
  itemLookup : List (String × FormattedItem)
  items : List FormattedItem
  responseLookup : List (String × Response)
  responses : List Response
  queuedSpeechItems : List (String × SpeechItem)
  queuedTranscriptItems : List (String × String)
  queuedInputAudio : Option (List Int)
deriving DecidableEq

/-- `readonly defaultFrequency = 24_000`. -/
def defaultFrequency : Nat := 24000

/-- `clear()` / the state right after construction. -/
def initConvState (frequency : Nat) : ConvState :=
  { frequency := frequency
    itemLookup := []
    items := []
    responseLookup := []
    responses := []
    queuedSpeechItems := []
    queuedTranscriptItems := []
    queuedInputAudio := none }

/-- `queueInputAudio(inputAudio)`. -/
def queueInputAudio (s : ConvState) (inputAudio : List Int) : ConvState :=
  { s with queuedInputAudio := some inputAudio }

/-- `getItem(id)` (`src/conversation.ts`): returns `this.itemLookup[id]`. -/
def getItem (s : ConvState) (id : String) : Option FormattedItem :=
  lookupRec s.itemLookup id

/-- `getItems()` (`src/conversation.ts`): returns `this.items.slice()`. -/
def getItems (s : ConvState) : List FormattedItem := s.items

/-- An item in an `EventHandlerResult` is either a stored formatted item or a
raw payload item (`MaybeFormattedItem` with no `formatted` field). -/
inductive ResultItem
  | formatted (it : FormattedItem)
  | plain (it : ItemPayload)
deriving DecidableEq

/-- The `delta` component of an `EventHandlerResult`. -/
structure ResultDelta where
  transcript : Option String := none
  audio : Option (List Int) := none
  text : Option String := none
  arguments : Option String := none
deriving DecidableEq

/-- `EventHandlerResult` (`src/types.ts`). -/
structure EvResult where
  item : Option ResultItem := none
  delta : Option ResultDelta := none
  response : Option Response := none
deriving DecidableEq

/-- The empty result `{}`. -/
def emptyResult : EvResult := {}

/-- The typed server events consumed by `processEvent`; each constructor
carries the server-minted `event_id` first.  `unknownType` stands for any
event type that has no entry in `EventProcessors`. -/
inductive ServerEvent
  | conversationItemCreated (eid : String) (item : ItemPayload)
  | conversationItemTruncated (eid item_id : String) (audio_end_ms : Nat)
  | conversationItemDeleted (eid item_id : String)
  | inputAudioTranscriptionCompleted
      (eid item_id : String) (content_index : Nat) (transcript : String)
  | inputAudioBufferSpeechStarted (eid item_id : String) (audio_start_ms : Nat)
  | inputAudioBufferSpeechStopped (eid item_id : String) (audio_end_ms : Nat)
  | responseCreated (eid : String) (response : Response)
  | responseOutputItemAdded (eid response_id : String) (item : ItemPayload)
  | responseOutputItemDone (eid : String) (item : Option ItemPayload)
  | responseContentPartAdded (eid item_id : String) (part : ContentPart)
  | responseAudioTranscriptDelta
      (eid item_id : String) (content_index : Nat) (delta : String)
  | responseAudioDelta
      (eid item_id : String) (content_index : Nat) (delta : String)
  | responseTextDelta
      (eid item_id : String) (content_index : Nat) (delta : String)
  | responseFunctionCallArgumentsDelta (eid item_id : String) (delta : String)
  | unknownType (eid ty : String)
deriving DecidableEq

/-- `event.event_id`. -/
def ServerEvent.eventId : ServerEvent → String
  | .conversationItemCreated eid _ => eid
  | .conversationItemTruncated eid _ _ => eid
  | .conversationItemDeleted eid _ => eid
  | .inputAudioTranscriptionCompleted eid _ _ _ => eid
  | .inputAudioBufferSpeechStarted eid _ _ => eid
  | .inputAudioBufferSpeechStopped eid _ _ => eid
  | .responseCreated eid _ => eid
  | .responseOutputItemAdded eid _ _ => eid
  | .responseOutputItemDone eid _ => eid
  | .responseContentPartAdded eid _ _ => eid
  | .responseAudioTranscriptDelta eid _ _ _ => eid
  | .responseAudioDelta eid _ _ _ => eid
  | .responseTextDelta eid _ _ _ => eid
  | .responseFunctionCallArgumentsDelta eid _ _ => eid
  | .unknownType eid _ => eid

/-- `event.type`.  The recognized constructors carry their fixed (non-empty)
wire name; `unknownType` carries an arbitrary type string. -/
def ServerEvent.typeName : ServerEvent → String
  | .conversationItemCreated _ _ => "conversation.item.created"
  | .conversationItemTruncated _ _ _ => "conversation.item.truncated"
  | .conversationItemDeleted _ _ => "conversation.item.deleted"
  | .inputAudioTranscriptionCompleted _ _ _ _ =>
      "conversation.item.input_audio_transcription.completed"
  | .inputAudioBufferSpeechStarted _ _ _ => "input_audio_buffer.speech_started"
  | .inputAudioBufferSpeechStopped _ _ _ => "input_audio_buffer.speech_stopped"
  | .responseCreated _ _ => "response.created"
  | .responseOutputItemAdded _ _ _ => "response.output_item.added"
  | .responseOutputItemDone _ _ => "response.output_item.done"
  | .responseContentPartAdded _ _ _ => "response.content_part.added"
  | .responseAudioTranscriptDelta _ _ _ _ => "response.audio_transcript.delta"
  | .responseAudioDelta _ _ _ _ => "response.audio.delta"
  | .responseTextDelta _ _ _ _ => "response.text.delta"
  | .responseFunctionCallArgumentsDelta _ _ _ =>
      "response.function_call_arguments.delta"
  | .unknownType _ ty => ty

/-!
## Utilities (`src/utils.ts`)
-/

/-- One write loop of `mergeInt16Arrays`: `for (i, x) of xs` starting at
target offset `i`, do `acc[i] = x` (out-of-range writes are impossible in the
only uses below; `List.set` ignores them, as `Int16Array` does). -/
def writeSeq (acc : List Int) (i : Nat) : List Int → List Int
  | [] => acc
  | x :: xs => writeSeq (acc.set i x) (i + 1) xs

/-- `mergeInt16Arrays(left, right)` (`src/utils.ts`): allocates a zeroed
buffer of the combined length and copies both inputs into it. -/
def mergeInt16Arrays (left right : List Int) : List Int :=
  let newValues := List.replicate (left.length + right.length) 0
  let newValues := writeSeq newValues 0 left
  writeSeq newValues left.length right

/-- Index of a character in the base64 alphabet. -/
def b64Index (c : Char) : Option Nat :=
  let i := ("ABCDEFGHIJKLMNOPQRSTUVWXYZabcdefghijklmnopqrstuvwxyz0123456789+/".toList).indexOf c
  if i < 64 then some i else none

/-- Strip up to two trailing `=` padding characters. -/
def stripPad (cs : List Char) : List Char :=
  match cs.reverse with
  | '=' :: '=' :: rest => rest.reverse
  | '=' :: rest => rest.reverse
  | _ => cs

/-- Decode a padding-free base64 character sequence into bytes; fails on an
invalid character or a dangling single character, as `atob` does. -/
def decodeB64Chars : List Char → Option (List Nat)
  | [] => some []
  | [_] => none
  | [c1, c2] => do
    let v1 ← b64Index c1
    let v2 ← b64Index c2
    pure [v1 * 4 + v2 / 16]
  | [c1, c2, c3] => do
    let v1 ← b64Index c1
    let v2 ← b64Index c2
    let v3 ← b64Index c3
    pure [v1 * 4 + v2 / 16, v2 % 16 * 16 + v3 / 4]
  | c1 :: c2 :: c3 :: c4 :: rest => do
    let v1 ← b64Index c1
    let v2 ← b64Index c2
    let v3 ← b64Index c3
    let v4 ← b64Index c4
    let bs ← decodeB64Chars rest
    pure ([v1 * 4 + v2 / 16, v2 % 16 * 16 + v3 / 4, v3 % 4 * 64 + v4] ++ bs)

/-- The platform `atob` composed with byte extraction, i.e.
`base64ToArrayBuffer` (`src/utils.ts`) viewed as a byte list; `none` models
the `InvalidCharacterError` thrown on malformed base64. -/
def base64ToBytes (s : String) : Option (List Nat) :=
  let cs := s.toList
  let cs := if cs.length % 4 = 0 then stripPad cs else cs
  decodeB64Chars cs

/-- `new Int16Array(buffer)`: reinterpret bytes as little-endian signed
16-bit samples; `none` models the `RangeError` thrown on an odd byte
length. -/
def bytesToInt16 : List Nat → Option (List Int)
  | [] => some []
  | [_] => none
  | b0 :: b1 :: rest => do
    let v := b0 + 256 * b1
    let x : Int := if 32768 ≤ v then (v : Int) - 65536 else (v : Int)
    let xs ← bytesToInt16 rest
    pure (x :: xs)

/-- Decoded PCM16 samples of one base64 `response.audio.delta` payload. -/
def decodeAudioDelta (d : String) : Option (List Int) :=
  (base64ToBytes d).bind bytesToInt16

/-!
## Event processors (`src/conversation.ts`)
-/

/-- Apply a mutation of the item stored under `id` to both containers that
reference it (the source mutates the shared object in place). -/
def updateItemEverywhere (s : ConvState) (id : String)
    (it : FormattedItem) : ConvState :=
  { s with
    itemLookup := setRec s.itemLookup id it
    items := s.items.map fun x => if x.id = id then it else x }

/-- Same for a response stored under `id`. -/
def updateResponseEverywhere (s : ConvState) (id : String)
    (r : Response) : ConvState :=
  { s with
    responseLookup := setRec s.responseLookup id r
    responses := s.responses.map fun x => if x.id = id then r else x }

/-- `items.indexOf(item)` followed by `splice(index, 1)` when found: remove
the first occurrence (reference identity in JS; value identity here, which
coincides because ids are unique in the store). -/
def removeFirstEq : List FormattedItem → FormattedItem → List FormattedItem
  | [], _ => []
  | y :: ys, x => if y = x then ys else y :: removeFirstEq ys x

/-- `structuredClone(item)` plus the empty formatted projection attached by
the `conversation.item.created` processor. -/
def mkNewItem (p : ItemPayload) : FormattedItem :=
  { id := p.id
    type := p.type
    status := p.status
    role := p.role
    content := p.content
    name := p.name
    call_id := p.call_id
    output := p.output
    arguments := p.arguments
    formatted := { audio := [], text := "", transcript := "" } }

/-- Text seeding of `conversation.item.created`: concatenate the `text` of
every `text` / `input_text` content part (the `if (newItem.content)` guard of
the source is always true: a JS array is truthy). -/
def textFromContent (content : List ContentPart) : String :=
  (content.filter fun c => c.type = "text" ∨ c.type = "input_text").foldl
    (fun acc c => acc ++ jsStr c.text) ""

/-- The role/type-dependent initialization at the end of
`conversation.item.created`; returns the finished item and the possibly
consumed `queuedInputAudio`. -/
def itemTypeInit (it : FormattedItem) (queuedInputAudio : Option (List Int)) :
    FormattedItem × Option (List Int) :=
  if it.type = "message" then
    if it.role = "user" then
      match queuedInputAudio with
      | some a =>
        ({ it with status := "completed", formatted.audio := a }, none)
      | none => ({ it with status := "completed" }, none)
    else ({ it with status := "in_progress" }, queuedInputAudio)
  else if it.type = "function_call" then
    ({ it with
        status := "in_progress"
        formatted.tool := some
          { name := it.name, call_id := it.call_id, arguments := "" } },
      queuedInputAudio)
  else if it.type = "function_call_output" then
    ({ it with status := "completed", formatted.output := some it.output },
      queuedInputAudio)
  else (it, queuedInputAudio)

/-- The item built by `EventProcessors['conversation.item.created']`: the
clone with empty projection, then (in source order) the queued speech-audio
splice, the text seeding, the queued-transcript seeding, and the role/type
initialization; also returns the possibly consumed `queuedInputAudio`. -/
def buildCreatedItem (s : ConvState) (p : ItemPayload) :
    FormattedItem × Option (List Int) :=
  let newItem0 := mkNewItem p
  -- `if (this.queuedSpeechItems[newItem.id]?.audio)`
  let speechAudio := (lookupRec s.queuedSpeechItems newItem0.id).bind (·.audio)
  let newItem1 := match speechAudio with
    | some a => { newItem0 with formatted.audio := a }
    | none => newItem0
  let newItem2 :=
    { newItem1 with
      formatted.text := newItem1.formatted.text ++ textFromContent newItem1.content }
  -- `if (this.queuedTranscriptItems[newItem.id])`
  let newItem3 := match lookupRec s.queuedTranscriptItems newItem0.id with
    | some t => { newItem2 with formatted.transcript := t }
    | none => newItem2
  itemTypeInit newItem3 s.queuedInputAudio

/-- `EventProcessors['conversation.item.created']`.  The source inserts the
cloned item into the store (when its id is new) and then keeps mutating the
shared object; the pure embedding computes the finished item
(`buildCreatedItem`) and inserts that — observationally identical because
nothing reads the store in between. -/
def processItemCreated (s : ConvState) (p : ItemPayload) :
    ConvState × EvResult :=
  let newItem0 := mkNewItem p
  let isNew := (lookupRec s.itemLookup newItem0.id).isNone
  let speechAudio := (lookupRec s.queuedSpeechItems newItem0.id).bind (·.audio)
  let queuedSpeech := match speechAudio with
    | some _ => deleteRec s.queuedSpeechItems newItem0.id
    | none => s.queuedSpeechItems
  let queuedTranscript := match lookupRec s.queuedTranscriptItems newItem0.id with
    | some _ => deleteRec s.queuedTranscriptItems newItem0.id
    | none => s.queuedTranscriptItems
  let fin := buildCreatedItem s p
  ({ s with
      itemLookup :=
        if isNew then setRec s.itemLookup fin.1.id fin.1 else s.itemLookup
      items := if isNew then s.items ++ [fin.1] else s.items
      queuedSpeechItems := queuedSpeech
      queuedTranscriptItems := queuedTranscript
      queuedInputAudio := fin.2 },
    { item := some (.formatted fin.1) })

/-- `EventProcessors['conversation.item.truncated']`. -/
def processItemTruncated (s : ConvState) (item_id : String)
    (audio_end_ms : Nat) : Except String (ConvState × EvResult) :=
  match lookupRec s.itemLookup item_id with
  | none => .error ("item.truncated: Item \"" ++ item_id ++ "\" not found")
  | some item =>
    let endIndex := audio_end_ms * s.frequency / 1000
    let item' :=
      { item with
        formatted.transcript := ""
        formatted.audio := item.formatted.audio.take endIndex }
    .ok (updateItemEverywhere s item_id item', { item := some (.formatted item') })

/-- `EventProcessors['conversation.item.deleted']`. -/
def processItemDeleted (s : ConvState) (item_id : String) :
    Except String (ConvState × EvResult) :=
  match lookupRec s.itemLookup item_id with
  | none => .error ("item.deleted: Item \"" ++ item_id ++ "\" not found")
  | some item =>
    .ok
      ({ s with
          itemLookup := deleteRec s.itemLookup item.id
          items := removeFirstEq s.items item },
        { item := some (.formatted item) })

/-- `EventProcessors['conversation.item.input_audio_transcription.completed']`. -/
def processTranscriptionCompleted (s : ConvState) (item_id : String)
    (content_index : Nat) (transcript : String) :
    Except String (ConvState × EvResult) :=
  -- `const formattedTranscript = transcript || ' '`
  let formattedTranscript := if transcript = "" then " " else transcript
  match lookupRec s.itemLookup item_id with
  | none =>
    .ok
      ({ s with
          queuedTranscriptItems :=
            setRec s.queuedTranscriptItems item_id formattedTranscript },
        emptyResult)
  | some item =>
    -- `if (item.content[content_index])` — guarded write, no error branch
    let content' := match item.content.get? content_index with
      | some part =>
        item.content.set content_index { part with transcript := some transcript }
      | none => item.content
    let item' :=
      { item with
        content := content'
        formatted.transcript := formattedTranscript }
    .ok (updateItemEverywhere s item_id item',
      { item := some (.formatted item')
        delta := some { transcript := some transcript } })

/-- `EventProcessors['input_audio_buffer.speech_started']`. -/
def processSpeechStarted (s : ConvState) (item_id : String)
    (audio_start_ms : Nat) : ConvState × EvResult :=
  let item := lookupRec s.itemLookup item_id
  ({ s with
      queuedSpeechItems :=
        setRec s.queuedSpeechItems item_id { audio_start_ms := audio_start_ms } },
    { item := item.map .formatted })

/-- `EventProcessors['input_audio_buffer.speech_stopped']`; the second
argument is the caller-supplied `inputAudioBuffer` (`none` when absent — note
that an empty `Int16Array` is truthy in JS, hence `Option` presence, not
emptiness, drives the `if (inputAudioBuffer)` branch). -/
def processSpeechStopped (s : ConvState) (item_id : String)
    (audio_end_ms : Nat) (inputAudioBuffer : Option (List Int)) :
    Except String (ConvState × EvResult) :=
  let item := lookupRec s.itemLookup item_id
  let queued0 := match lookupRec s.queuedSpeechItems item_id with
    | none =>
      setRec s.queuedSpeechItems item_id { audio_start_ms := audio_end_ms }
    | some _ => s.queuedSpeechItems
  match lookupRec queued0 item_id with
  | none => .error "assert(speech)"
  | some speech =>
    let speech1 := { speech with audio_end_ms := some audio_end_ms }
    let speech2 := match inputAudioBuffer with
      | some buf =>
        let startIndex := speech1.audio_start_ms * s.frequency / 1000
        let endIndex := audio_end_ms * s.frequency / 1000
        { speech1 with audio := some (jsSlice buf startIndex endIndex) }
      | none => speech1
    .ok
      ({ s with queuedSpeechItems := setRec queued0 item_id speech2 },
        { item := item.map .formatted })

/-- `EventProcessors['response.created']`. -/
def processResponseCreated (s : ConvState) (r : Response) :
    ConvState × EvResult :=
  if (lookupRec s.responseLookup r.id).isNone then
    ({ s with
        responseLookup := setRec s.responseLookup r.id r
        responses := s.responses ++ [r] },
      { response := some r })
  else (s, { response := some r })

/-- `EventProcessors['response.output_item.added']`. -/
def processOutputItemAdded (s : ConvState) (response_id : String)
    (item : ItemPayload) : Except String (ConvState × EvResult) :=
  match lookupRec s.responseLookup response_id with
  | none =>
    .error ("response.output_item.added: Response \"" ++ response_id
      ++ "\" not found")
  | some response =>
    let response' := { response with output := response.output ++ [item] }
    .ok (updateResponseEverywhere s response_id response',
      { item := some (.plain item), response := some response' })

/-- `EventProcessors['response.output_item.done']`. -/
def processOutputItemDone (s : ConvState) (item : Option ItemPayload) :
    Except String (ConvState × EvResult) :=
  match item with
  | none => .error "response.output_item.done: Missing \"item\""
  | some it =>
    match lookupRec s.itemLookup it.id with
    | none =>
      .error ("response.output_item.done: Item \"" ++ it.id ++ "\" not found")
    | some foundItem =>
      let foundItem' := { foundItem with status := it.status }
      .ok (updateItemEverywhere s it.id foundItem',
        { item := some (.formatted foundItem') })

/-- `EventProcessors['response.content_part.added']`. -/
def processContentPartAdded (s : ConvState) (item_id : String)
    (part : ContentPart) : Except String (ConvState × EvResult) :=
  match lookupRec s.itemLookup item_id with
  | none =>
    .error ("response.content_part.added: Item \"" ++ item_id
      ++ "\" not found")
  | some item =>
    let item' := { item with content := item.content ++ [part] }
    .ok (updateItemEverywhere s item_id item', { item := some (.formatted item') })

/-- `EventProcessors['response.audio_transcript.delta']`.  The source casts
the addressed content part and appends to its `transcript`; indexing past the
list throws (`undefined.transcript`), modelled by the error branch. -/
def processAudioTranscriptDelta (s : ConvState) (item_id : String)
    (content_index : Nat) (delta : String) :
    Except String (ConvState × EvResult) :=
  match lookupRec s.itemLookup item_id with
  | none =>
    .error ("response.audio_transcript.delta: Item \"" ++ item_id
      ++ "\" not found")
  | some item =>
    match item.content.get? content_index with
    | none => .error "TypeError: item.content[content_index] is undefined"
    | some part =>
      let part' := { part with transcript := some (jsStr part.transcript ++ delta) }
      let item' :=
        { item with
          content := item.content.set content_index part'
          formatted.transcript := item.formatted.transcript ++ delta }
      .ok (updateItemEverywhere s item_id item',
        { item := some (.formatted item')
          delta := some { transcript := some delta } })

/-- `EventProcessors['response.audio.delta']`: decode the base64 payload to
PCM16 samples and merge them into the formatted audio (the canonical content
part is deliberately not updated by the source). -/
def processAudioDelta (s : ConvState) (item_id : String) (delta : String) :
    Except String (ConvState × EvResult) :=
  match lookupRec s.itemLookup item_id with
  | none => .error ("response.audio.delta: Item \"" ++ item_id ++ "\" not found")
  | some item =>
    match base64ToBytes delta with
    | none => .error "InvalidCharacterError: invalid base64"
    | some bytes =>
      match bytesToInt16 bytes with
      | none => .error "RangeError: buffer length is odd"
      | some appendValues =>
        let item' :=
          { item with
            formatted.audio := mergeInt16Arrays item.formatted.audio appendValues }
        .ok (updateItemEverywhere s item_id item',
          { item := some (.formatted item')
            delta := some { audio := some appendValues } })

/-- `EventProcessors['response.text.delta']`. -/
def processTextDelta (s : ConvState) (item_id : String)
    (content_index : Nat) (delta : String) :
    Except String (ConvState × EvResult) :=
  match lookupRec s.itemLookup item_id with
  | none => .error ("response.text.delta: Item \"" ++ item_id ++ "\" not found")
  | some item =>
    match item.content.get? content_index with
    | none => .error "TypeError: item.content[content_index] is undefined"
    | some part =>
      let part' := { part with text := some (jsStr part.text ++ delta) }
      let item' :=
        { item with
          content := item.content.set content_index part'
          formatted.text := item.formatted.text ++ delta }
      .ok (updateItemEverywhere s item_id item',
        { item := some (.formatted item')
          delta := some { text := some delta } })

/-- `EventProcessors['response.function_call_arguments.delta']`.  The source
appends to `item.arguments` and to `item.formatted.tool!.arguments`; a
missing tool descriptor throws (`undefined.arguments`). -/
def processFunctionCallArgumentsDelta (s : ConvState) (item_id : String)
    (delta : String) : Except String (ConvState × EvResult) :=
  match lookupRec s.itemLookup item_id with
  | none =>
    .error ("response.function_call_arguments.delta: Item \"" ++ item_id
      ++ "\" not found")
  | some item =>
    match item.formatted.tool with
    | none => .error "TypeError: item.formatted.tool is undefined"
    | some tool =>
      let item' :=
        { item with
          arguments := item.arguments ++ delta
          formatted.tool := some { tool with arguments := tool.arguments ++ delta } }
      .ok (updateItemEverywhere s item_id item',
        { item := some (.formatted item')
          delta := some { arguments := some delta } })

/-- `processEvent(event, ...args)` (`src/conversation.ts`): asserts a
non-empty `event_id` and `type`, then dispatches to the processor table; an
unmapped type is an assertion failure.  The optional `inputAudioBuffer`
context is consumed only by `input_audio_buffer.speech_stopped`. -/
def processEvent (s : ConvState) (e : ServerEvent)
    (inputAudioBuffer : Option (List Int) := none) :
    Except String (ConvState × EvResult) :=
  if e.eventId = "" then .error "Missing \"event_id\" on event"
  else if e.typeName = "" then .error "Missing \"type\" on event"
  else
    match e with
    | .conversationItemCreated _ p => .ok (processItemCreated s p)
    | .conversationItemTruncated _ item_id ms => processItemTruncated s item_id ms
    | .conversationItemDeleted _ item_id => processItemDeleted s item_id
    | .inputAudioTranscriptionCompleted _ item_id ci tr =>
      processTranscriptionCompleted s item_id ci tr
    | .inputAudioBufferSpeechStarted _ item_id ms =>
      .ok (processSpeechStarted s item_id ms)
    | .inputAudioBufferSpeechStopped _ item_id ms =>
      processSpeechStopped s item_id ms inputAudioBuffer
    | .responseCreated _ r => .ok (processResponseCreated s r)
    | .responseOutputItemAdded _ rid item => processOutputItemAdded s rid item
    | .responseOutputItemDone _ item => processOutputItemDone s item
    | .responseContentPartAdded _ item_id part =>
      processContentPartAdded s item_id part
    | .responseAudioTranscriptDelta _ item_id ci d =>
      processAudioTranscriptDelta s item_id ci d
    | .responseAudioDelta _ item_id _ d => processAudioDelta s item_id d
    | .responseTextDelta _ item_id ci d => processTextDelta s item_id ci d
    | .responseFunctionCallArgumentsDelta _ item_id d =>
      processFunctionCallArgumentsDelta s item_id d
    | .unknownType _ ty =>
      .error ("Missing event processor for \"" ++ ty ++ "\"")

/-!
## Client layer (`src/client.ts`)

Only the state and methods the claims address.  Outbound sends are collected
in order instead of being written to a socket; thrown `assert` / `TypeError`
failures are the `Except.error` component, and any events sent before the
throw are still reported in the send list (they have already left the
client).
-/

/-- `sessionConfig.turn_detection` (`Realtime.TurnDetection`). -/
structure TurnDetection where
  type : String
deriving DecidableEq

/-- The outbound client events the modelled methods can send. -/
inductive OutEvent
  | responseCancel
  | conversationItemTruncate (item_id : String) (content_index : Nat)
      (audio_end_ms : Nat)
  | conversationItemCreate (content : List ContentPart)
  | inputAudioBufferCommit
  | responseCreate
deriving DecidableEq

/-- The part of `RealtimeClient` state the modelled methods read or write. -/
structure ClientState where
  relay : Bool
  turn_detection : Option TurnDetection
  inputAudioBuffer : List Int
  conversation : ConvState
deriving DecidableEq

/-- `getTurnDetectionType()`: `sessionConfig.turn_detection?.type`. -/
def getTurnDetectionType (c : ClientState) : Option String :=
  c.turn_detection.map (·.type)

/-- `createResponse()` (`src/client.ts`): when turn detection is off and the
manual input-audio buffer is non-empty (`byteLength = 2 * length > 0`), it
commits and queues the buffer before requesting a generation. -/
def createResponse (c : ClientState) :
    List OutEvent × Except String ClientState :=
  if c.relay then
    ([], .error "Unable to create a response directly in relay mode")
  else if (getTurnDetectionType c).isNone ∧ c.inputAudioBuffer.length ≠ 0 then
    ([.inputAudioBufferCommit, .responseCreate],
      .ok
        { c with
          conversation := queueInputAudio c.conversation c.inputAudioBuffer
          inputAudioBuffer := [] })
  else ([.responseCreate], .ok c)

/-- `sendUserMessageContent(content)` (`src/client.ts`).  The parameter has
no default value, so a call without an argument reaches
`if (content.length)` with `content === undefined` and throws a `TypeError`
(modelled by the `none` branch). -/
def sendUserMessageContent (c : ClientState)
    (content : Option (List ContentPart)) :
    List OutEvent × Except String ClientState :=
  if c.relay then
    ([], .error "Unable to send messages directly in relay mode")
  else
    match content with
    | none =>
      ([], .error "TypeError: Cannot read properties of undefined (reading 'length')")
    | some parts =>
      let sent1 :=
        if parts.length ≠ 0 then [OutEvent.conversationItemCreate parts] else []
      let next := createResponse c
      (sent1 ++ next.1, next.2)

/-- `cancelResponse(id?, sampleCount = 0)` (`src/client.ts`).  A falsy id
(`undefined` or `""`) means plain cancel.  `audio_end_ms` is
`Math.floor((sampleCount / this.conversation.defaultFrequency) * 1000)`,
which in exact arithmetic is `sampleCount * 1000 / 24000` rounded down. -/
def cancelResponse (c : ClientState) (id : Option String)
    (sampleCount : Nat := 0) :
    List OutEvent × Except String (Option FormattedItem) :=
  if c.relay then
    ([], .error "Unable to cancel a response directly in relay mode")
  else
    match id with
    | none => ([.responseCancel], .ok none)
    | some i =>
      if i = "" then ([.responseCancel], .ok none)
      else
        match getItem c.conversation i with
        | none => ([], .error ("Could not find item \"" ++ i ++ "\""))
        | some item =>
          if item.type ≠ "message" then
            ([], .error "Can only cancelResponse messages with type \"message\"")
          else if item.role ≠ "assistant" then
            ([], .error "Can only cancelResponse messages with role \"assistant\"")
          else
            match item.content.findIdx? (fun part => part.type = "audio") with
            | none =>
              ([.responseCancel],
                .error ("Could not find audio on item " ++ i ++ " to cancel"))
            | some audioIndex =>
              ([.responseCancel,
                  .conversationItemTruncate i audioIndex
                    (sampleCount * 1000 / defaultFrequency)],
                .ok (some item))

/-!
## Reference-level view of `getItem` / `getItems`

The value-level embedding above cannot talk about aliasing, so the two read
accessors are additionally modelled over an explicit heap: item records live
in an arena, and the two stores hold references (arena indices) — exactly the
object graph the JS engine maintains.  `getItem` returns the reference stored
in the lookup (`return this.itemLookup[id]`), and `getItems` returns a fresh
top-level array holding the same references (`return this.items.slice()`).
-/

/-- Conversation state with the JS heap made explicit: `heap` is the arena of
item records, the stores hold references into it. -/
structure RefConvState where
  heap : List FormattedItem
  itemLookupR : List (String × Nat)
  itemsR : List Nat
deriving DecidableEq

/-- `getItem(id)` over the explicit heap: the reference stored in the lookup
is returned as-is (no copy is taken). -/
def getItemR (s : RefConvState) (id : String) : Option Nat :=
  lookupRec s.itemLookupR id

/-- `getItems()` over the explicit heap: `slice()` copies the array but not
the referenced records, so the returned value is the same reference list. -/
def getItemsR (s : RefConvState) : List Nat := s.itemsR

/-- Dereference: the record a reference currently points at. -/
def derefR (s : RefConvState) (r : Nat) : Option FormattedItem := s.heap.get? r

/-- The engine's stored record for `id` (lookup, then dereference). -/
def storedItemR (s : RefConvState) (id : String) : Option FormattedItem :=
  (getItemR s id).bind (derefR s)

/-- An external caller mutating the record behind a reference it received
(e.g. `getItem(id).status = ...`): the write lands in the shared arena. -/
def writeRefR (s : RefConvState) (r : Nat) (v : FormattedItem) : RefConvState :=
  { s with heap := s.heap.set r v }

/-!
## Concrete fixtures used by the witnesses
-/

/-- A 1.5-second PCM16 buffer of silence at 24 kHz. -/
def silence36000 : List Int := List.replicate 36000 0

/-- An in-progress assistant message with one audio and one text content
part, holding 36000 formatted audio samples. -/
def assistantItemA : FormattedItem :=
  { id := "item_A"
    type := "message"
    status := "in_progress"
    role := "assistant"
    content := [{ type := "audio", transcript := some "hi" },
      { type := "text", text := some "hi" }]
    formatted := { audio := silence36000, text := "hi", transcript := "hi" } }

/-- A conversation state holding just `assistantItemA`. -/
def stateA : ConvState :=
  { initConvState 24000 with
    itemLookup := [("item_A", assistantItemA)]
    items := [assistantItemA] }

/-- A payload that replays `assistantItemA`'s create event. -/
def payloadA : ItemPayload :=
  { id := "item_A"
    type := "message"
    status := "in_progress"
    role := "assistant"
    content := [] }

/-- The protocol-violation inputs of claim C6: an event with an
unrecognized type, or an item-referencing event (truncate, delete,
content-part-added, any delta) whose item id is not stored, or a
`response.output_item.added` whose response id is not stored — all with a
well-formed (non-empty) event id and type. -/
def IsProtocolViolation (s : ConvState) : ServerEvent → Prop
  | .unknownType eid ty => eid ≠ "" ∧ ty ≠ ""
  | .conversationItemTruncated eid item_id _ =>
    eid ≠ "" ∧ lookupRec s.itemLookup item_id = none
  | .conversationItemDeleted eid item_id =>
    eid ≠ "" ∧ lookupRec s.itemLookup item_id = none
  | .responseContentPartAdded eid item_id _ =>
    eid ≠ "" ∧ lookupRec s.itemLookup item_id = none
  | .responseAudioTranscriptDelta eid item_id _ _ =>
    eid ≠ "" ∧ lookupRec s.itemLookup item_id = none
  | .responseAudioDelta eid item_id _ _ =>
    eid ≠ "" ∧ lookupRec s.itemLookup item_id = none
  | .responseTextDelta eid item_id _ _ =>
    eid ≠ "" ∧ lookupRec s.itemLookup item_id = none
  | .responseFunctionCallArgumentsDelta eid item_id _ =>
    eid ≠ "" ∧ lookupRec s.itemLookup item_id = none
  | .responseOutputItemAdded eid response_id _ =>
    eid ≠ "" ∧ lookupRec s.responseLookup response_id = none
  | _ => False

/-- A non-relay client whose conversation is `stateA` and whose manual
input-audio buffer is empty. -/
def clientA : ClientState :=
  { relay := false
    turn_detection := none
    inputAudioBuffer := []
    conversation := stateA }

/-- A non-relay client with turn detection off and three samples in the
manual input-audio buffer. -/
def clientB : ClientState :=
  { relay := false
    turn_detection := none
    inputAudioBuffer := [1, 2, 3]
    conversation := initConvState 24000 }

/-- A small in-progress assistant message (no audio) used by the aliasing
fixtures. -/
def itemP : FormattedItem :=
  { id := "p"
    type := "message"
    status := "in_progress"
    role := "assistant"
    content := []
    formatted := { audio := [], text := "", transcript := "" } }

/-- `itemP` after an external caller flips its status. -/
def itemQ : FormattedItem := { itemP with status := "completed" }

/-- A heap-exposed conversation state storing only `itemP` at reference 0. -/
def refState9 : RefConvState :=
  { heap := [itemP], itemLookupR := [("p", 0)], itemsR := [0] }

/-- One event of a claim-C3 sequence: an item-create or an item-delete. -/
inductive CDEvent
  | create (eid : String) (p : ItemPayload)
  | delete (eid item_id : String)

/-- The wire event a `CDEvent` stands for. -/
def CDEvent.toServerEvent : CDEvent → ServerEvent
  | .create eid p => .conversationItemCreated eid p
  | .delete eid item_id => .conversationItemDeleted eid item_id

/-- Process a sequence of create/delete events, stopping at the first
error. -/
def runCD (s : ConvState) : List CDEvent → Except String ConvState
  | [] => .ok s
  | e :: rest => do
    let q ← processEvent s e.toServerEvent
    runCD q.1 rest

/-- Success-path successor state of one create/delete event (used to phrase
sequence well-formedness over the evolving store). -/
def stepCD (s : ConvState) : CDEvent → ConvState
  | .create _ p => (processItemCreated s p).1
  | .delete _ item_id =>
    match processItemDeleted s item_id with
    | .ok q => q.1
    | .error _ => s

/-- Well-formed claim-C3 sequence: non-empty event ids, every create id
fresh in the evolving store (starting from the empty store this is exactly
pairwise distinctness of the created ids), every delete addressing a
currently stored id. -/
def WfSeq (s : ConvState) : List CDEvent → Prop
  | [] => True
  | .create eid p :: rest =>
    eid ≠ "" ∧ lookupRec s.itemLookup p.id = none
      ∧ WfSeq (stepCD s (.create eid p)) rest
  | .delete eid item_id :: rest =>
    eid ≠ "" ∧ (lookupRec s.itemLookup item_id).isSome
      ∧ WfSeq (stepCD s (.delete eid item_id)) rest

/-- Number of create events in a sequence. -/
def countCreates : List CDEvent → Nat
  | [] => 0
  | .create _ _ :: rest => countCreates rest + 1
  | .delete _ _ :: rest => countCreates rest

/-- Number of delete events in a sequence. -/
def countDeletes : List CDEvent → Nat
  | [] => 0
  | .create _ _ :: rest => countDeletes rest
  | .delete _ _ :: rest => countDeletes rest + 1

/-- The store invariant of the conversation engine: the id lookup is exactly
the item list keyed by id, and stored ids are pairwise distinct. -/
def StoreInv (s : ConvState) : Prop :=
  s.itemLookup = s.items.map (fun it => (it.id, it))
    ∧ (s.items.map (·.id)).Nodup

/-- A user-message create payload with id `c`. -/
def payloadC : ItemPayload :=
  { id := "c"
    type := "message"
    status := "completed"
    role := "user"
    content := [] }

/-- A user-message create payload with id `d`. -/
def payloadD : ItemPayload :=
  { id := "d"
    type := "message"
    status := "completed"
    role := "user"
    content := [] }

/-- The witness sequence: create `c`, create `d`, delete `c`. -/
def cdSeq : List CDEvent :=
  [.create "e1" payloadC, .create "e2" payloadD, .delete "e3" "c"]

/-!
## Helper lemmas
-/

theorem lookupRec_setRec_self {α : Type} (r : List (String × α)) (k : String)
    (v : α) : lookupRec (setRec r k v) k = some v := by
  induction r with
  | nil => simp [setRec, lookupRec]
  | cons p rest ih =>
    obtain ⟨pk, pv⟩ := p
    by_cases h : pk = k
    · simp [setRec, lookupRec, h]
    · simp [setRec, lookupRec, h, ih]

theorem lookupRec_setRec_ne {α : Type} (r : List (String × α)) (k k' : String)
    (v : α) (h : k' ≠ k) :
    lookupRec (setRec r k v) k' = lookupRec r k' := by
  have hk : k ≠ k' := Ne.symm h
  induction r with
  | nil => simp [setRec, lookupRec, hk]
  | cons p rest ih =>
    obtain ⟨pk, pv⟩ := p
    by_cases hp : pk = k
    · subst hp
      simp [setRec, lookupRec, hk]
    · simp only [setRec, hp, if_false, lookupRec]
      by_cases hp' : pk = k'
      · simp [hp']
      · simp [hp', ih]

theorem setRec_of_lookup_none {α : Type} (r : List (String × α)) (k : String)
    (v : α) (h : lookupRec r k = none) : setRec r k v = r ++ [(k, v)] := by
  induction r with
  | nil => simp [setRec]
  | cons p rest ih =>
    obtain ⟨pk, pv⟩ := p
    by_cases hp : pk = k
    · simp [lookupRec, hp] at h
    · simp only [lookupRec, hp, if_false] at h
      simp [setRec, hp, ih h]

theorem lookupRec_deleteRec_self {α : Type} (r : List (String × α))
    (k : String) : lookupRec (deleteRec r k) k = none := by
  induction r with
  | nil => simp [deleteRec, lookupRec]
  | cons p rest ih =>
    obtain ⟨pk, pv⟩ := p
    by_cases hp : pk = k
    · simp [deleteRec, hp, ih]
    · simp [deleteRec, lookupRec, hp, ih]

theorem lookupRec_deleteRec_ne {α : Type} (r : List (String × α))
    (k k' : String) (h : k' ≠ k) :
    lookupRec (deleteRec r k) k' = lookupRec r k' := by
  induction r with
  | nil => simp [deleteRec]
  | cons p rest ih =>
    obtain ⟨pk, pv⟩ := p
    by_cases hp : pk = k
    · subst hp
      have hne : ¬ pk = k' := Ne.symm h
      simp [deleteRec, lookupRec, hne, ih]
    · by_cases hp' : pk = k'
      · simp [deleteRec, lookupRec, hp, hp', h]
      · simp [deleteRec, lookupRec, hp, hp', ih]

theorem lookupRec_append_right {α : Type} (r₁ r₂ : List (String × α))
    (k : String) (h : lookupRec r₁ k = none) :
    lookupRec (r₁ ++ r₂) k = lookupRec r₂ k := by
  induction r₁ with
  | nil => simp
  | cons p rest ih =>
    obtain ⟨pk, pv⟩ := p
    by_cases hp : pk = k
    · simp [lookupRec, hp] at h
    · simp only [lookupRec, hp, if_false] at h
      simp [lookupRec, hp, ih h]

theorem writeSeq_eq (xs : List Int) :
    ∀ (acc : List Int) (i : Nat), i + xs.length ≤ acc.length →
      writeSeq acc i xs = acc.take i ++ xs ++ acc.drop (i + xs.length) := by
  induction xs with
  | nil =>
    intro acc i _
    simp [writeSeq]
  | cons x xs ih =>
    intro acc i h
    have hi : i < acc.length := by
      simp only [List.length_cons] at h
      omega
    have hlen : i + 1 + xs.length ≤ (acc.set i x).length := by
      simp only [List.length_set, List.length_cons] at h ⊢
      omega
    rw [writeSeq, ih (acc.set i x) (i + 1) hlen]
    rw [List.set_eq_take_cons_drop x hi]
    have h1 : (acc.take i).length = i := by
      simp [List.length_take, Nat.min_eq_left (Nat.le_of_lt hi)]
    rw [List.take_append_eq_append_take, List.drop_append_eq_append_drop, h1]
    have h2 : (acc.take i).take (i + 1) = acc.take i := by
      apply List.take_of_length_le
      omega
    have h3 : i + 1 - i = 1 := by omega
    have h4 : (acc.take i).drop (i + 1 + xs.length) = [] := by
      apply List.drop_eq_nil_of_le
      omega
    have h5 : i + 1 + xs.length - i = 1 + xs.length := by omega
    rw [h2, h3, h4, h5]
    simp only [List.take_cons, List.take_zero, List.nil_append]
    have h6 : (x :: acc.drop (i + 1)).drop (1 + xs.length)
        = acc.drop (i + 1 + xs.length) := by
      have hc : (1 : Nat) + xs.length = xs.length + 1 := by omega
      rw [hc]
      simp only [List.drop_succ_cons]
      rw [List.drop_drop]
    rw [h6]
    have h8 : List.take 1 (x :: acc.drop (i + 1)) = [x] := rfl
    rw [h8]
    have h7 : i + (x :: xs).length = i + 1 + xs.length := by
      simp only [List.length_cons]
      omega
    rw [h7]
    simp

/-- The double-loop copy of `mergeInt16Arrays` is list concatenation. -/
theorem mergeInt16Arrays_eq_append (left right : List Int) :
    mergeInt16Arrays left right = left ++ right := by
  show writeSeq (writeSeq (List.replicate (left.length + right.length) 0) 0 left)
      left.length right = left ++ right
  have h1 : (0 : Nat) + left.length
      ≤ (List.replicate (left.length + right.length) (0 : Int)).length := by
    simp
  rw [writeSeq_eq left _ 0 h1]
  simp only [List.take_zero, List.nil_append, Nat.zero_add, List.drop_replicate]
  have hdrop : left.length + right.length - left.length = right.length := by
    omega
  rw [hdrop]
  have h2 : left.length + right.length
      ≤ (left ++ List.replicate right.length (0 : Int)).length := by
    simp
  rw [writeSeq_eq right _ left.length h2]
  have h3 : (left ++ List.replicate right.length (0 : Int)).take left.length
      = left := by
    rw [List.take_append_eq_append_take]
    simp
  have h4 : (left ++ List.replicate right.length (0 : Int)).drop
      (left.length + right.length) = [] := by
    apply List.drop_eq_nil_of_le
    simp
  rw [h3, h4, List.append_nil]

/-!
## Claim C2 — conversation.item.truncated
-/

/-- C2: for every `conversation.item.truncated` event addressing a stored
item whose formatted audio has length at least
`floor(audio_end_ms * frequency / 1000)`, `processEvent` sets the item's
formatted audio to exactly the first `floor(audio_end_ms * frequency / 1000)`
samples and clears its formatted transcript. -/
theorem item_truncated_slices_audio_and_clears_transcript
    (s : ConvState) (eid item_id : String) (audio_end_ms : Nat)
    (it : FormattedItem)
    (heid : eid ≠ "")
    (hit : lookupRec s.itemLookup item_id = some it)
    (hlen : audio_end_ms * s.frequency / 1000 ≤ it.formatted.audio.length) :
    ∃ it',
      processEvent s (.conversationItemTruncated eid item_id audio_end_ms)
          = .ok (updateItemEverywhere s item_id it',
              { item := some (.formatted it') })
        ∧ it'.formatted.audio
            = it.formatted.audio.take (audio_end_ms * s.frequency / 1000)
        ∧ it'.formatted.audio.length = audio_end_ms * s.frequency / 1000
        ∧ it'.formatted.transcript = "" := by
  refine ⟨{ it with
      formatted.transcript := ""
      formatted.audio :=
        it.formatted.audio.take (audio_end_ms * s.frequency / 1000) },
    ?_, rfl, ?_, rfl⟩
  · simp [processEvent, ServerEvent.eventId, ServerEvent.typeName, heid,
      processItemTruncated, hit]
  · rw [List.length_take]
    omega

/-- C2 witness: truncating `assistantItemA` (36000 samples) at
`audio_end_ms = 1000` and rate 24000 yields exactly
`1000 * 24000 / 1000 = 24000` samples and an empty transcript. -/
theorem item_truncated_slices_audio_and_clears_transcript_witness :
    ("evt_1" : String) ≠ ""
      ∧ lookupRec stateA.itemLookup "item_A" = some assistantItemA
      ∧ 1000 * stateA.frequency / 1000
          ≤ assistantItemA.formatted.audio.length
      ∧ ∃ it',
          processEvent stateA (.conversationItemTruncated "evt_1" "item_A" 1000)
              = .ok (updateItemEverywhere stateA "item_A" it',
                  { item := some (.formatted it') })
            ∧ it'.formatted.audio
                = assistantItemA.formatted.audio.take
                    (1000 * stateA.frequency / 1000)
            ∧ it'.formatted.audio.length = 1000 * stateA.frequency / 1000
            ∧ it'.formatted.transcript = "" := by
  have h1 : ("evt_1" : String) ≠ "" := by decide
  have h2 : lookupRec stateA.itemLookup "item_A" = some assistantItemA := rfl
  have h3 : 1000 * stateA.frequency / 1000
      ≤ assistantItemA.formatted.audio.length := by
    show 1000 * 24000 / 1000 ≤ (List.replicate 36000 (0 : Int)).length
    rw [List.length_replicate]
    norm_num
  exact ⟨h1, h2, h3,
    item_truncated_slices_audio_and_clears_transcript stateA "evt_1" "item_A"
      1000 assistantItemA h1 h2 h3⟩

/-!
## Claim C4 — idempotent item-create replay
-/

/-- C4: processing a `conversation.item.created` event whose item id is
already stored adds no duplicate to the item list and leaves the lookup
unchanged, still mapping the id to the originally inserted item. -/
theorem item_created_replay_is_idempotent
    (s : ConvState) (eid : String) (p : ItemPayload) (orig : FormattedItem)
    (heid : eid ≠ "")
    (horig : lookupRec s.itemLookup p.id = some orig) :
    ∃ s' r, processEvent s (.conversationItemCreated eid p) = .ok (s', r)
      ∧ s'.items = s.items
      ∧ s'.itemLookup = s.itemLookup
      ∧ lookupRec s'.itemLookup p.id = some orig := by
  have hstep : processEvent s (.conversationItemCreated eid p)
      = .ok (processItemCreated s p) := by
    simp [processEvent, ServerEvent.eventId, ServerEvent.typeName, heid]
  have hid : lookupRec s.itemLookup (mkNewItem p).id = some orig := horig
  have hitems : (processItemCreated s p).1.items = s.items := by
    simp [processItemCreated, hid]
  have hlookup : (processItemCreated s p).1.itemLookup = s.itemLookup := by
    simp [processItemCreated, hid]
  refine ⟨(processItemCreated s p).1, (processItemCreated s p).2, ?_, hitems,
    hlookup, ?_⟩
  · rw [hstep]
  · rw [hlookup]
    exact horig

/-- C4 witness: replaying the create event of the already-stored `item_A`
leaves `stateA`'s list and lookup untouched. -/
theorem item_created_replay_is_idempotent_witness :
    ("evt_2" : String) ≠ ""
      ∧ lookupRec stateA.itemLookup payloadA.id = some assistantItemA
      ∧ ∃ s' r,
          processEvent stateA (.conversationItemCreated "evt_2" payloadA)
              = .ok (s', r)
            ∧ s'.items = stateA.items
            ∧ s'.itemLookup = stateA.itemLookup
            ∧ lookupRec s'.itemLookup payloadA.id = some assistantItemA := by
  have h1 : ("evt_2" : String) ≠ "" := by decide
  have h2 : lookupRec stateA.itemLookup payloadA.id = some assistantItemA := rfl
  exact ⟨h1, h2,
    item_created_replay_is_idempotent stateA "evt_2" payloadA assistantItemA
      h1 h2⟩

/-!
## Claim C6 — protocol violations are explicit, state-preserving errors
-/

/-- C6: every event with an unrecognized type, or referencing an unknown
item id (truncate, delete, content-part-added, any delta) or response id
(`response.output_item.added`), makes `processEvent` return an explicit
error.  The `Except.error` constructor carries no successor state and the
embedding throws before any store mutation, exactly as the source does, so
the four stores are the untouched `s` and a subsequent valid event is
processed from `s` as if the failing event had never occurred. -/
theorem protocol_violation_is_explicit_error
    (s : ConvState) (e : ServerEvent) (buf : Option (List Int))
    (h : IsProtocolViolation s e) :
    ∃ msg, processEvent s e buf = .error msg := by
  cases e with
  | unknownType eid ty =>
    obtain ⟨h1, h2⟩ := h
    exact ⟨"Missing event processor for \"" ++ ty ++ "\"",
      by simp [processEvent, ServerEvent.eventId, ServerEvent.typeName, h1, h2]⟩
  | conversationItemTruncated eid item_id ms =>
    obtain ⟨h1, h2⟩ := h
    exact ⟨"item.truncated: Item \"" ++ item_id ++ "\" not found",
      by simp [processEvent, ServerEvent.eventId, ServerEvent.typeName, h1,
        processItemTruncated, h2]⟩
  | conversationItemDeleted eid item_id =>
    obtain ⟨h1, h2⟩ := h
    exact ⟨"item.deleted: Item \"" ++ item_id ++ "\" not found",
      by simp [processEvent, ServerEvent.eventId, ServerEvent.typeName, h1,
        processItemDeleted, h2]⟩
  | responseContentPartAdded eid item_id part =>
    obtain ⟨h1, h2⟩ := h
    exact ⟨"response.content_part.added: Item \"" ++ item_id ++ "\" not found",
      by simp [processEvent, ServerEvent.eventId, ServerEvent.typeName, h1,
        processContentPartAdded, h2]⟩
  | responseAudioTranscriptDelta eid item_id ci d =>
    obtain ⟨h1, h2⟩ := h
    exact ⟨"response.audio_transcript.delta: Item \"" ++ item_id ++ "\" not found",
      by simp [processEvent, ServerEvent.eventId, ServerEvent.typeName, h1,
        processAudioTranscriptDelta, h2]⟩
  | responseAudioDelta eid item_id ci d =>
    obtain ⟨h1, h2⟩ := h
    exact ⟨"response.audio.delta: Item \"" ++ item_id ++ "\" not found",
      by simp [processEvent, ServerEvent.eventId, ServerEvent.typeName, h1,
        processAudioDelta, h2]⟩
  | responseTextDelta eid item_id ci d =>
    obtain ⟨h1, h2⟩ := h
    exact ⟨"response.text.delta: Item \"" ++ item_id ++ "\" not found",
      by simp [processEvent, ServerEvent.eventId, ServerEvent.typeName, h1,
        processTextDelta, h2]⟩
  | responseFunctionCallArgumentsDelta eid item_id d =>
    obtain ⟨h1, h2⟩ := h
    exact ⟨"response.function_call_arguments.delta: Item \"" ++ item_id
        ++ "\" not found",
      by simp [processEvent, ServerEvent.eventId, ServerEvent.typeName, h1,
        processFunctionCallArgumentsDelta, h2]⟩
  | responseOutputItemAdded eid rid item =>
    obtain ⟨h1, h2⟩ := h
    exact ⟨"response.output_item.added: Response \"" ++ rid ++ "\" not found",
      by simp [processEvent, ServerEvent.eventId, ServerEvent.typeName, h1,
        processOutputItemAdded, h2]⟩
  | conversationItemCreated eid p => exact absurd h (by simp [IsProtocolViolation])
  | inputAudioTranscriptionCompleted eid item_id ci tr =>
    exact absurd h (by simp [IsProtocolViolation])
  | inputAudioBufferSpeechStarted eid item_id ms =>
    exact absurd h (by simp [IsProtocolViolation])
  | inputAudioBufferSpeechStopped eid item_id ms =>
    exact absurd h (by simp [IsProtocolViolation])
  | responseCreated eid r => exact absurd h (by simp [IsProtocolViolation])
  | responseOutputItemDone eid item =>
    exact absurd h (by simp [IsProtocolViolation])

/-- C6 witness: a `response.text.delta` for an id that `stateA` does not
store fails with an explicit error. -/
theorem protocol_violation_is_explicit_error_witness :
    IsProtocolViolation stateA
        (.responseTextDelta "evt_3" "item_unknown" 0 "hi")
      ∧ ∃ msg,
          processEvent stateA (.responseTextDelta "evt_3" "item_unknown" 0 "hi")
              none
            = .error msg := by
  have h : IsProtocolViolation stateA
      (.responseTextDelta "evt_3" "item_unknown" 0 "hi") := by
    constructor
    · decide
    · rfl
  exact ⟨h, protocol_violation_is_explicit_error stateA _ none h⟩

/-!
## Claim C5 — speech segment slicing
-/

/-- C5: after `speech_started(t0)` followed by `speech_stopped(t1)` for the
same item id with a supplied input audio buffer `b`, the pending speech
segment holds exactly samples
`[floor(t0 * frequency / 1000), floor(t1 * frequency / 1000))` of `b`; when
both cut indices are within bounds the segment length is their difference —
in particular `t0 = 500`, `t1 = 1500` at 24000 Hz give `36000 - 12000 =
24000` samples (see the witness). -/
theorem speech_stopped_slices_queued_segment
    (s : ConvState) (e1 e2 item_id : String) (t0 t1 : Nat) (b : List Int)
    (he1 : e1 ≠ "") (he2 : e2 ≠ "") :
    ∃ s1 r1 s2 r2,
      processEvent s (.inputAudioBufferSpeechStarted e1 item_id t0)
          = .ok (s1, r1)
        ∧ processEvent s1 (.inputAudioBufferSpeechStopped e2 item_id t1)
            (some b) = .ok (s2, r2)
        ∧ lookupRec s2.queuedSpeechItems item_id
            = some
              { audio_start_ms := t0
                audio_end_ms := some t1
                audio := some (jsSlice b (t0 * s.frequency / 1000)
                  (t1 * s.frequency / 1000)) }
        ∧ (t0 * s.frequency / 1000 ≤ t1 * s.frequency / 1000 →
            t1 * s.frequency / 1000 ≤ b.length →
            (jsSlice b (t0 * s.frequency / 1000)
                (t1 * s.frequency / 1000)).length
              = t1 * s.frequency / 1000 - t0 * s.frequency / 1000) := by
  have hq : lookupRec
      (setRec s.queuedSpeechItems item_id
        ({ audio_start_ms := t0 } : SpeechItem)) item_id
      = some ({ audio_start_ms := t0 } : SpeechItem) :=
    lookupRec_setRec_self _ _ _
  refine
    ⟨{ s with
        queuedSpeechItems :=
          setRec s.queuedSpeechItems item_id { audio_start_ms := t0 } },
      { item := (lookupRec s.itemLookup item_id).map .formatted },
      { s with
        queuedSpeechItems :=
          setRec (setRec s.queuedSpeechItems item_id { audio_start_ms := t0 })
            item_id
            { audio_start_ms := t0
              audio_end_ms := some t1
              audio := some (jsSlice b (t0 * s.frequency / 1000)
                (t1 * s.frequency / 1000)) } },
      { item := (lookupRec s.itemLookup item_id).map .formatted },
      ?_, ?_, ?_, ?_⟩
  · simp [processEvent, ServerEvent.eventId, ServerEvent.typeName, he1,
      processSpeechStarted]
  · simp only [processEvent, ServerEvent.eventId, ServerEvent.typeName,
      processSpeechStopped, hq]
    simp [he2]
  · exact lookupRec_setRec_self _ _ _
  · intro hse hlen
    simp only [jsSlice, List.length_drop, List.length_take]
    omega

/-- C5 witness: `speech_started(500)` then `speech_stopped(1500)` at
24000 Hz over a 36000-sample buffer queue a segment of
`1500 * 24000 / 1000 - 500 * 24000 / 1000 = 24000` samples. -/
theorem speech_stopped_slices_queued_segment_witness :
    (∃ s1 r1 s2 r2,
      processEvent stateA
          (.inputAudioBufferSpeechStarted "evt_4" "item_B" 500)
          = .ok (s1, r1)
        ∧ processEvent s1
            (.inputAudioBufferSpeechStopped "evt_5" "item_B" 1500)
            (some silence36000) = .ok (s2, r2)
        ∧ lookupRec s2.queuedSpeechItems "item_B"
            = some
              { audio_start_ms := 500
                audio_end_ms := some 1500
                audio := some (jsSlice silence36000
                  (500 * stateA.frequency / 1000)
                  (1500 * stateA.frequency / 1000)) }
        ∧ (500 * stateA.frequency / 1000 ≤ 1500 * stateA.frequency / 1000 →
            1500 * stateA.frequency / 1000 ≤ silence36000.length →
            (jsSlice silence36000 (500 * stateA.frequency / 1000)
                (1500 * stateA.frequency / 1000)).length
              = 1500 * stateA.frequency / 1000
                - 500 * stateA.frequency / 1000))
      ∧ 500 * stateA.frequency / 1000 ≤ 1500 * stateA.frequency / 1000
      ∧ 1500 * stateA.frequency / 1000 ≤ silence36000.length
      ∧ 1500 * stateA.frequency / 1000 - 500 * stateA.frequency / 1000
          = 24000 := by
  refine ⟨speech_stopped_slices_queued_segment stateA "evt_4" "evt_5" "item_B"
      500 1500 silence36000 (by decide) (by decide), ?_, ?_, ?_⟩
  · show 500 * 24000 / 1000 ≤ 1500 * 24000 / 1000
    norm_num
  · show 1500 * 24000 / 1000 ≤ (List.replicate 36000 (0 : Int)).length
    rw [List.length_replicate]
  · show 1500 * 24000 / 1000 - 500 * 24000 / 1000 = 24000
    norm_num

theorem itemTypeInit_id (it : FormattedItem) (q : Option (List Int)) :
    (itemTypeInit it q).1.id = it.id := by
  rcases q with _ | a <;> · unfold itemTypeInit; split_ifs <;> rfl

theorem itemTypeInit_transcript (it : FormattedItem) (q : Option (List Int)) :
    (itemTypeInit it q).1.formatted.transcript = it.formatted.transcript := by
  rcases q with _ | a <;> · unfold itemTypeInit; split_ifs <;> rfl

theorem mkNewItem_id (p : ItemPayload) : (mkNewItem p).id = p.id := rfl

theorem buildCreatedItem_id (s : ConvState) (p : ItemPayload) :
    (buildCreatedItem s p).1.id = p.id := by
  rcases hsa : (lookupRec s.queuedSpeechItems p.id).bind (·.audio) with _ | a <;>
    rcases htr : lookupRec s.queuedTranscriptItems p.id with _ | t <;>
    simp [buildCreatedItem, mkNewItem_id, hsa, htr, itemTypeInit_id, mkNewItem]

theorem buildCreatedItem_transcript (s : ConvState) (p : ItemPayload)
    (t : String) (htr : lookupRec s.queuedTranscriptItems p.id = some t) :
    (buildCreatedItem s p).1.formatted.transcript = t := by
  rcases hsa : (lookupRec s.queuedSpeechItems p.id).bind (·.audio) with _ | a <;>
    simp [buildCreatedItem, mkNewItem_id, hsa, htr, itemTypeInit_transcript]

theorem processEvent_created_eq (s : ConvState) (eid : String)
    (p : ItemPayload) (heid : eid ≠ "") :
    processEvent s (.conversationItemCreated eid p)
      = .ok (processItemCreated s p) := by
  simp [processEvent, ServerEvent.eventId, ServerEvent.typeName, heid]

theorem processItemCreated_itemLookup_new (s : ConvState) (p : ItemPayload)
    (hnew : lookupRec s.itemLookup p.id = none) :
    (processItemCreated s p).1.itemLookup
      = setRec s.itemLookup p.id (buildCreatedItem s p).1 := by
  simp [processItemCreated, mkNewItem_id, hnew, buildCreatedItem_id]

theorem processItemCreated_items_new (s : ConvState) (p : ItemPayload)
    (hnew : lookupRec s.itemLookup p.id = none) :
    (processItemCreated s p).1.items = s.items ++ [(buildCreatedItem s p).1] := by
  simp [processItemCreated, mkNewItem_id, hnew]

theorem processItemCreated_queuedTranscript_consumed (s : ConvState)
    (p : ItemPayload) (t : String)
    (htr : lookupRec s.queuedTranscriptItems p.id = some t) :
    (processItemCreated s p).1.queuedTranscriptItems
      = deleteRec s.queuedTranscriptItems p.id := by
  simp [processItemCreated, mkNewItem_id, htr]

/-!
## Claim C1 — pending transcript buffered, then applied on create
-/

/-- C1: a `conversation.item.input_audio_transcription.completed` event for
an id that is not yet stored queues the transcript (a single space when it is
empty) in the pending-transcript store and returns an empty result; when the
`conversation.item.created` event for that id is processed, the created
item's `formatted.transcript` equals the queued transcript and the pending
entry is gone. -/
theorem pending_transcript_is_applied_on_create
    (s : ConvState) (e1 e2 item_id tr : String) (ci : Nat) (p : ItemPayload)
    (he1 : e1 ≠ "") (he2 : e2 ≠ "") (hpid : p.id = item_id)
    (hmiss : lookupRec s.itemLookup item_id = none) :
    ∃ s1 s2 r2 it,
      processEvent s (.inputAudioTranscriptionCompleted e1 item_id ci tr)
          = .ok (s1, emptyResult)
        ∧ lookupRec s1.queuedTranscriptItems item_id
            = some (if tr = "" then " " else tr)
        ∧ processEvent s1 (.conversationItemCreated e2 p) = .ok (s2, r2)
        ∧ lookupRec s2.itemLookup item_id = some it
        ∧ it.formatted.transcript = (if tr = "" then " " else tr)
        ∧ lookupRec s2.queuedTranscriptItems item_id = none := by
  subst hpid
  set tr' := if tr = "" then " " else tr with htr'
  set s1 : ConvState :=
    { s with
      queuedTranscriptItems := setRec s.queuedTranscriptItems p.id tr' }
    with hs1
  have hq1 : lookupRec s1.queuedTranscriptItems p.id = some tr' :=
    lookupRec_setRec_self _ _ _
  have hmiss1 : lookupRec s1.itemLookup p.id = none := hmiss
  refine ⟨s1, (processItemCreated s1 p).1, (processItemCreated s1 p).2,
    (buildCreatedItem s1 p).1, ?_, hq1, ?_, ?_, ?_, ?_⟩
  · simp [processEvent, ServerEvent.eventId, ServerEvent.typeName, he1,
      processTranscriptionCompleted, hmiss, emptyResult, hs1, htr']
  · rw [processEvent_created_eq s1 e2 p he2]
  · rw [processItemCreated_itemLookup_new s1 p hmiss1]
    exact lookupRec_setRec_self _ _ _
  · exact buildCreatedItem_transcript s1 p tr' hq1
  · rw [processItemCreated_queuedTranscript_consumed s1 p tr' hq1]
    exact lookupRec_deleteRec_self _ _

/-- C1 witness: a transcript "bonjour" arriving for the unknown id
`item_C` is queued, and the later create event for `item_C` carries it. -/
theorem pending_transcript_is_applied_on_create_witness :
    (("evt_6" : String) ≠ "" ∧ ("evt_7" : String) ≠ ""
        ∧ ("item_C" : String) = "item_C"
        ∧ lookupRec stateA.itemLookup "item_C" = none)
      ∧ ∃ s1 s2 r2 it,
          processEvent stateA
              (.inputAudioTranscriptionCompleted "evt_6" "item_C" 0 "bonjour")
              = .ok (s1, emptyResult)
            ∧ lookupRec s1.queuedTranscriptItems "item_C"
                = some (if "bonjour" = "" then " " else "bonjour")
            ∧ processEvent s1
                (.conversationItemCreated "evt_7"
                  { id := "item_C", type := "message", status := "completed"
                    role := "user", content := [] }) = .ok (s2, r2)
            ∧ lookupRec s2.itemLookup "item_C" = some it
            ∧ it.formatted.transcript
                = (if "bonjour" = "" then " " else "bonjour")
            ∧ lookupRec s2.queuedTranscriptItems "item_C" = none := by
  refine ⟨⟨by decide, by decide, rfl, rfl⟩, ?_⟩
  exact pending_transcript_is_applied_on_create stateA "evt_6" "evt_7"
    "item_C" "bonjour" 0
    { id := "item_C", type := "message", status := "completed"
      role := "user", content := [] }
    (by decide) (by decide) rfl rfl

/-!
## Claim C7 — cancelResponse preconditions and truncate arithmetic
-/

/-- C7: `cancelResponse` with a non-empty id raises a synchronous error when
the id is not stored, the stored item is not a `message`, its role is not
`assistant`, or it has no `audio` content part; otherwise it sends
`response.cancel` and a `conversation.item.truncate` whose `audio_end_ms` is
`floor(sampleCount / defaultFrequency * 1000)` and returns the item. -/
theorem cancelResponse_preconditions_and_truncate
    (c : ClientState) (i : String) (n : Nat)
    (hrelay : c.relay = false) (hi : i ≠ "") :
    (getItem c.conversation i = none →
        ∃ msg, (cancelResponse c (some i) n).2 = .error msg)
      ∧ (∀ it, getItem c.conversation i = some it → it.type ≠ "message" →
          ∃ msg, (cancelResponse c (some i) n).2 = .error msg)
      ∧ (∀ it, getItem c.conversation i = some it → it.role ≠ "assistant" →
          ∃ msg, (cancelResponse c (some i) n).2 = .error msg)
      ∧ (∀ it, getItem c.conversation i = some it →
          it.content.findIdx? (fun part => part.type = "audio") = none →
          ∃ msg, (cancelResponse c (some i) n).2 = .error msg)
      ∧ (∀ it j, getItem c.conversation i = some it → it.type = "message" →
          it.role = "assistant" →
          it.content.findIdx? (fun part => part.type = "audio") = some j →
          cancelResponse c (some i) n
            = ([.responseCancel,
                .conversationItemTruncate i j (n * 1000 / defaultFrequency)],
              .ok (some it))) := by
  refine ⟨?_, ?_, ?_, ?_, ?_⟩
  · intro hnone
    exact ⟨"Could not find item \"" ++ i ++ "\"",
      by simp [cancelResponse, hrelay, hi, hnone]⟩
  · intro it hit htype
    exact ⟨"Can only cancelResponse messages with type \"message\"",
      by simp [cancelResponse, hrelay, hi, hit, htype]⟩
  · intro it hit hrole
    by_cases htype : it.type = "message"
    · exact ⟨"Can only cancelResponse messages with role \"assistant\"",
        by simp [cancelResponse, hrelay, hi, hit, htype, hrole]⟩
    · exact ⟨"Can only cancelResponse messages with type \"message\"",
        by simp [cancelResponse, hrelay, hi, hit, htype]⟩
  · intro it hit haudio
    by_cases htype : it.type = "message"
    · by_cases hrole : it.role = "assistant"
      · exact ⟨"Could not find audio on item " ++ i ++ " to cancel",
          by simp [cancelResponse, hrelay, hi, hit, htype, hrole, haudio]⟩
      · exact ⟨"Can only cancelResponse messages with role \"assistant\"",
          by simp [cancelResponse, hrelay, hi, hit, htype, hrole]⟩
    · exact ⟨"Can only cancelResponse messages with type \"message\"",
        by simp [cancelResponse, hrelay, hi, hit, htype]⟩
  · intro it j hit htype hrole haudio
    simp [cancelResponse, hrelay, hi, hit, htype, hrole, haudio]

/-- C7 witness: cancelling the stored assistant message `item_A` with
`sampleCount = 48000` sends `response.cancel` and a truncate at
`48000 * 1000 / 24000` ms, and returns the item. -/
theorem cancelResponse_preconditions_and_truncate_witness :
    clientA.relay = false ∧ ("item_A" : String) ≠ ""
      ∧ getItem clientA.conversation "item_A" = some assistantItemA
      ∧ assistantItemA.type = "message"
      ∧ assistantItemA.role = "assistant"
      ∧ assistantItemA.content.findIdx? (fun part => part.type = "audio")
          = some 0
      ∧ cancelResponse clientA (some "item_A") 48000
          = ([.responseCancel,
              .conversationItemTruncate "item_A" 0 (48000 * 1000 / defaultFrequency)],
            .ok (some assistantItemA)) := by
  have h1 : clientA.relay = false := rfl
  have h2 : ("item_A" : String) ≠ "" := by decide
  have h3 : getItem clientA.conversation "item_A" = some assistantItemA := rfl
  have h4 : assistantItemA.type = "message" := rfl
  have h5 : assistantItemA.role = "assistant" := rfl
  have h6 : assistantItemA.content.findIdx? (fun part => part.type = "audio")
      = some 0 := by decide
  exact ⟨h1, h2, h3, h4, h5, h6,
    (cancelResponse_preconditions_and_truncate clientA "item_A" 48000 h1
      h2).2.2.2.2 assistantItemA 0 h3 h4 h5 h6⟩

/-!
## Claim C10 — sendUserMessageContent with empty content / no argument
-/

/-- C10 counterexample: calling `sendUserMessageContent` with no argument
does NOT trigger generation — `content.length` on `undefined` throws a
`TypeError` before anything is sent, so no `response.create` goes out. -/
theorem sendUserMessageContent_no_argument_throws :
    sendUserMessageContent clientA none
        = ([], .error
            "TypeError: Cannot read properties of undefined (reading 'length')")
      ∧ OutEvent.responseCreate ∉ (sendUserMessageContent clientA none).1 := by
  constructor
  · rfl
  · decide

/-- C10 (amended): calling `sendUserMessageContent` with an empty content
array sends no `conversation.item.create` but still calls `createResponse`,
which sends `response.create`, preceded by `input_audio_buffer.commit` and
queuing of the input audio buffer when turn detection is disabled and the
buffer is non-empty.  (With no argument at all the call instead throws, see
the counterexample.) -/
theorem sendUserMessageContent_empty_content_creates_response
    (c : ClientState) (hrelay : c.relay = false) :
    sendUserMessageContent c (some [])
        = (if (getTurnDetectionType c).isNone ∧ c.inputAudioBuffer.length ≠ 0
            then
              ([.inputAudioBufferCommit, .responseCreate],
                .ok
                  { c with
                    conversation :=
                      queueInputAudio c.conversation c.inputAudioBuffer
                    inputAudioBuffer := [] })
            else ([.responseCreate], .ok c))
      ∧ ∀ parts,
          OutEvent.conversationItemCreate parts
            ∉ (sendUserMessageContent c (some [])).1 := by
  by_cases hc : (getTurnDetectionType c).isNone ∧ c.inputAudioBuffer.length ≠ 0
  · constructor
    · simp [sendUserMessageContent, hrelay, createResponse, hc]
    · intro parts
      simp only [sendUserMessageContent, hrelay, createResponse]
      split <;> simp
  · constructor
    · simp [sendUserMessageContent, hrelay, createResponse, hc]
    · intro parts
      simp only [sendUserMessageContent, hrelay, createResponse]
      split <;> simp

/-- C10 witness: on `clientB` (turn detection off, three buffered samples)
the empty-content call sends `input_audio_buffer.commit` then
`response.create` and no `conversation.item.create`. -/
theorem sendUserMessageContent_empty_content_creates_response_witness :
    clientB.relay = false
      ∧ (sendUserMessageContent clientB (some [])
          = (if (getTurnDetectionType clientB).isNone
                ∧ clientB.inputAudioBuffer.length ≠ 0
              then
                ([.inputAudioBufferCommit, .responseCreate],
                  .ok
                    { clientB with
                      conversation :=
                        queueInputAudio clientB.conversation
                          clientB.inputAudioBuffer
                      inputAudioBuffer := [] })
              else ([.responseCreate], .ok clientB))
        ∧ ∀ parts,
            OutEvent.conversationItemCreate parts
              ∉ (sendUserMessageContent clientB (some [])).1) :=
  ⟨rfl, sendUserMessageContent_empty_content_creates_response clientB rfl⟩

/-!
## Claim C9 — getItem / getItems expose aliased references, not copies
-/

/-- C9 counterexample: `getItem` returns the reference stored in the lookup
itself (`return this.itemLookup[id]`), not a copy — mutating the record
behind the returned reference changes the engine's stored state, refuting
the claim that returned values are copies. -/
theorem getItem_returns_aliased_reference_counterexample :
    getItemR refState9 "p" = some 0
      ∧ storedItemR refState9 "p" = some itemP
      ∧ storedItemR (writeRefR refState9 0 itemQ) "p" = some itemQ
      ∧ itemQ ≠ itemP := by
  refine ⟨rfl, rfl, rfl, ?_⟩
  decide

/-- C9 (amended): `getItems` returns a fresh top-level array copy of the
internal list (`items.slice()`), but its elements — and the value returned by
`getItem` — are the internal item records themselves: for any stored id,
writing through the reference `getItem` returned is visible in the engine's
stored state. -/
theorem getItem_aliases_store_and_getItems_copies_list
    (s : RefConvState) (id : String) (r : Nat) (v : FormattedItem)
    (h : getItemR s id = some r) (hr : r < s.heap.length) :
    getItemsR s = s.itemsR
      ∧ storedItemR (writeRefR s r v) id = some v := by
  refine ⟨rfl, ?_⟩
  have h1 : getItemR (writeRefR s r v) id = some r := h
  simp only [storedItemR, h1, Option.bind]
  simp [derefR, writeRefR, List.get?_eq_getElem?, List.getElem?_set, hr]

/-- C9 amended-claim witness: on `refState9`, writing `itemQ` through the
reference returned for `"p"` updates the stored item to `itemQ`, while
`getItems` returns the (copied) reference list unchanged. -/
theorem getItem_aliases_store_and_getItems_copies_list_witness :
    getItemR refState9 "p" = some 0 ∧ 0 < refState9.heap.length
      ∧ (getItemsR refState9 = refState9.itemsR
          ∧ storedItemR (writeRefR refState9 0 itemQ) "p" = some itemQ) := by
  refine ⟨rfl, by decide, ?_⟩
  exact getItem_aliases_store_and_getItems_copies_list refState9 "p" 0 itemQ
    rfl (by decide)

theorem setRec_setRec {α : Type} (r : List (String × α)) (k : String)
    (a b : α) : setRec (setRec r k a) k b = setRec r k b := by
  induction r with
  | nil => simp [setRec]
  | cons p rest ih =>
    obtain ⟨pk, pv⟩ := p
    by_cases hp : pk = k
    · simp [setRec, hp]
    · simp [setRec, hp, ih]

theorem updateItemEverywhere_collapse (s : ConvState) (id : String)
    (a b : FormattedItem) (ha : a.id = id) :
    updateItemEverywhere (updateItemEverywhere s id a) id b
      = updateItemEverywhere s id b := by
  simp only [updateItemEverywhere, setRec_setRec, List.map_map]
  congr 1
  apply List.map_congr_left
  intro x _
  by_cases hx : x.id = id
  · simp [Function.comp, hx, ha]
  · simp [Function.comp, hx]

theorem lookupRec_updateItemEverywhere_self (s : ConvState) (id : String)
    (it : FormattedItem) :
    lookupRec (updateItemEverywhere s id it).itemLookup id = some it :=
  lookupRec_setRec_self _ _ _

/-!
## Claim C8 — delta accumulation is associative
-/

/-- C8: applying text deltas `d1` then `d2` to a stored item with a text
content part at the addressed index produces exactly the state produced by
the single delta `d1 ++ d2` (same content-part text, same formatted text);
likewise audio deltas concatenate their decoded sample sequences onto the
formatted audio. -/
theorem delta_accumulation_is_associative
    (s : ConvState) (e1 e2 e3 e4 e5 item_id : String) (ci : Nat)
    (d1 d2 b1 b2 t0 : String)
    (it : FormattedItem) (part : ContentPart) (a1 a2 : List Int)
    (he1 : e1 ≠ "") (he2 : e2 ≠ "") (he3 : e3 ≠ "") (he4 : e4 ≠ "")
    (he5 : e5 ≠ "")
    (hit : lookupRec s.itemLookup item_id = some it) (hid : it.id = item_id)
    (hci : it.content.get? ci = some part)
    (htype : part.type = "text") (htext : part.text = some t0)
    (ha1 : decodeAudioDelta b1 = some a1)
    (ha2 : decodeAudioDelta b2 = some a2) :
    (∃ rB rC,
      (processEvent s (.responseTextDelta e1 item_id ci d1)).bind
          (fun q => processEvent q.1 (.responseTextDelta e2 item_id ci d2))
        = .ok (updateItemEverywhere s item_id
            { it with
              content := it.content.set ci
                { part with text := some (t0 ++ (d1 ++ d2)) }
              formatted.text := it.formatted.text ++ (d1 ++ d2) }, rB)
      ∧ processEvent s (.responseTextDelta e3 item_id ci (d1 ++ d2))
        = .ok (updateItemEverywhere s item_id
            { it with
              content := it.content.set ci
                { part with text := some (t0 ++ (d1 ++ d2)) }
              formatted.text := it.formatted.text ++ (d1 ++ d2) }, rC))
    ∧ (∃ rE,
      (processEvent s (.responseAudioDelta e4 item_id ci b1)).bind
          (fun q => processEvent q.1 (.responseAudioDelta e5 item_id ci b2))
        = .ok (updateItemEverywhere s item_id
            { it with
              formatted.audio := it.formatted.audio ++ (a1 ++ a2) }, rE)
      ∧ lookupRec
          (updateItemEverywhere s item_id
            { it with
              formatted.audio := it.formatted.audio ++ (a1 ++ a2) }).itemLookup
          item_id
          = some { it with
              formatted.audio := it.formatted.audio ++ (a1 ++ a2) }) := by
  have hlt : ci < it.content.length := (List.get?_eq_some.mp hci).1
  have hci' : it.content[ci]? = some part := by
    rw [← List.get?_eq_getElem?]
    exact hci
  constructor
  · -- text deltas
    refine
      ⟨{ item := some (.formatted
            { it with
              content := it.content.set ci
                { part with text := some (t0 ++ (d1 ++ d2)) },
              formatted.text := it.formatted.text ++ (d1 ++ d2) }),
         delta := some { text := some d2 } },
        { item := some (.formatted
            { it with
              content := it.content.set ci
                { part with text := some (t0 ++ (d1 ++ d2)) },
              formatted.text := it.formatted.text ++ (d1 ++ d2) }),
          delta := some { text := some (d1 ++ d2) } },
        ?_, ?_⟩
    · have hstep1 : processEvent s (.responseTextDelta e1 item_id ci d1)
          = .ok (updateItemEverywhere s item_id
              { it with
                content := it.content.set ci
                  { part with text := some (t0 ++ d1) }
                formatted.text := it.formatted.text ++ d1 },
            { item := some (.formatted
                { it with
                  content := it.content.set ci
                    { part with text := some (t0 ++ d1) }
                  formatted.text := it.formatted.text ++ d1 })
              delta := some { text := some d1 } }) := by
        simp [processEvent, ServerEvent.eventId, ServerEvent.typeName, he1,
          processTextDelta, hit, hci', htext, jsStr]
      rw [hstep1]
      have hit2 : lookupRec
          (updateItemEverywhere s item_id
            { it with
              content := it.content.set ci { part with text := some (t0 ++ d1) }
              formatted.text := it.formatted.text ++ d1 }).itemLookup item_id
          = some { it with
              content := it.content.set ci { part with text := some (t0 ++ d1) }
              formatted.text := it.formatted.text ++ d1 } :=
        lookupRec_updateItemEverywhere_self _ _ _
      have hci2 : (it.content.set ci { part with text := some (t0 ++ d1) })[ci]?
          = some { part with text := some (t0 ++ d1) } := by
        simp [List.getElem?_set, hlt]
      simp only [Except.bind]
      have hstep2 : processEvent
          (updateItemEverywhere s item_id
            { it with
              content := it.content.set ci { part with text := some (t0 ++ d1) }
              formatted.text := it.formatted.text ++ d1 })
          (.responseTextDelta e2 item_id ci d2)
          = .ok (updateItemEverywhere
              (updateItemEverywhere s item_id
                { it with
                  content := it.content.set ci
                    { part with text := some (t0 ++ d1) }
                  formatted.text := it.formatted.text ++ d1 })
              item_id
              { it with
                content := it.content.set ci
                  { part with text := some (t0 ++ (d1 ++ d2)) }
                formatted.text := it.formatted.text ++ (d1 ++ d2) },
            { item := some (.formatted
                { it with
                  content := it.content.set ci
                    { part with text := some (t0 ++ (d1 ++ d2)) }
                  formatted.text := it.formatted.text ++ (d1 ++ d2) })
              delta := some { text := some d2 } }) := by
        simp only [processEvent, ServerEvent.eventId, ServerEvent.typeName,
          processTextDelta, hit2, jsStr, List.set_set]
        simp [he2, hci2, jsStr, String.append_assoc, List.set_set]
      rw [hstep2, updateItemEverywhere_collapse]
      exact hid
    · simp [processEvent, ServerEvent.eventId, ServerEvent.typeName, he3,
        processTextDelta, hit, hci', htext, jsStr]
  · -- audio deltas
    obtain ⟨bs1, hbs1, hsa1⟩ := Option.bind_eq_some.mp ha1
    obtain ⟨bs2, hbs2, hsa2⟩ := Option.bind_eq_some.mp ha2
    refine
      ⟨{ item := some (.formatted
            { it with formatted.audio := it.formatted.audio ++ (a1 ++ a2) }),
         delta := some { audio := some a2 } },
        ?_, lookupRec_updateItemEverywhere_self _ _ _⟩
    have hstep1 : processEvent s (.responseAudioDelta e4 item_id ci b1)
        = .ok (updateItemEverywhere s item_id
            { it with
              formatted.audio := mergeInt16Arrays it.formatted.audio a1 },
          { item := some (.formatted
              { it with
                formatted.audio := mergeInt16Arrays it.formatted.audio a1 })
            delta := some { audio := some a1 } }) := by
      simp [processEvent, ServerEvent.eventId, ServerEvent.typeName, he4,
        processAudioDelta, hit, hbs1, hsa1]
    rw [hstep1]
    simp only [Except.bind]
    have hit2 : lookupRec
        (updateItemEverywhere s item_id
          { it with
            formatted.audio := mergeInt16Arrays it.formatted.audio a1 }).itemLookup
        item_id
        = some { it with
            formatted.audio := mergeInt16Arrays it.formatted.audio a1 } :=
      lookupRec_updateItemEverywhere_self _ _ _
    have hstep2 : processEvent
        (updateItemEverywhere s item_id
          { it with
            formatted.audio := mergeInt16Arrays it.formatted.audio a1 })
        (.responseAudioDelta e5 item_id ci b2)
        = .ok (updateItemEverywhere
            (updateItemEverywhere s item_id
              { it with
                formatted.audio := mergeInt16Arrays it.formatted.audio a1 })
            item_id
            { it with
              formatted.audio := it.formatted.audio ++ (a1 ++ a2) },
          { item := some (.formatted
              { it with
                formatted.audio := it.formatted.audio ++ (a1 ++ a2) })
            delta := some { audio := some a2 } }) := by
      simp only [processEvent, ServerEvent.eventId, ServerEvent.typeName,
        processAudioDelta, hit2, hbs2, hsa2]
      simp [he5, mergeInt16Arrays_eq_append, List.append_assoc]
    rw [hstep2, updateItemEverywhere_collapse]
    exact hid

/-- C8 witness: on the stored `item_A` (text part `"hi"` at index 1),
text deltas `"He"` then `"llo"` equal the single delta `"Hello"`, and audio
deltas `"AQA="` (sample `[1]`) then `"AgA="` (sample `[2]`) append
`[1] ++ [2]` to the formatted audio. -/
theorem delta_accumulation_is_associative_witness :
    (lookupRec stateA.itemLookup "item_A" = some assistantItemA
        ∧ assistantItemA.id = "item_A"
        ∧ assistantItemA.content.get? 1
            = some { type := "text", text := some "hi" }
        ∧ decodeAudioDelta "AQA=" = some [1]
        ∧ decodeAudioDelta "AgA=" = some [2])
      ∧ ((∃ rB rC,
        (processEvent stateA (.responseTextDelta "evt_8" "item_A" 1 "He")).bind
            (fun q => processEvent q.1 (.responseTextDelta "evt_9" "item_A" 1 "llo"))
          = .ok (updateItemEverywhere stateA "item_A"
              { assistantItemA with
                content := assistantItemA.content.set 1
                  { ({ type := "text", text := some "hi" } : ContentPart) with
                    text := some ("hi" ++ ("He" ++ "llo")) },
                formatted.text := assistantItemA.formatted.text ++ ("He" ++ "llo") }, rB)
        ∧ processEvent stateA (.responseTextDelta "evt_10" "item_A" 1 ("He" ++ "llo"))
          = .ok (updateItemEverywhere stateA "item_A"
              { assistantItemA with
                content := assistantItemA.content.set 1
                  { ({ type := "text", text := some "hi" } : ContentPart) with
                    text := some ("hi" ++ ("He" ++ "llo")) },
                formatted.text := assistantItemA.formatted.text ++ ("He" ++ "llo") }, rC))
      ∧ (∃ rE,
        (processEvent stateA (.responseAudioDelta "evt_11" "item_A" 1 "AQA=")).bind
            (fun q => processEvent q.1 (.responseAudioDelta "evt_12" "item_A" 1 "AgA="))
          = .ok (updateItemEverywhere stateA "item_A"
              { assistantItemA with
                formatted.audio :=
                  assistantItemA.formatted.audio ++ ([1] ++ [2]) }, rE)
        ∧ lookupRec
            (updateItemEverywhere stateA "item_A"
              { assistantItemA with
                formatted.audio :=
                  assistantItemA.formatted.audio ++ ([1] ++ [2]) }).itemLookup
            "item_A"
            = some { assistantItemA with
                formatted.audio :=
                  assistantItemA.formatted.audio ++ ([1] ++ [2]) })) := by
  have h1 : lookupRec stateA.itemLookup "item_A" = some assistantItemA := rfl
  have h2 : assistantItemA.id = "item_A" := rfl
  have h3 : assistantItemA.content.get? 1
      = some { type := "text", text := some "hi" } := rfl
  have h4 : decodeAudioDelta "AQA=" = some [1] := by decide
  have h5 : decodeAudioDelta "AgA=" = some [2] := by decide
  exact ⟨⟨h1, h2, h3, h4, h5⟩,
    delta_accumulation_is_associative stateA "evt_8" "evt_9" "evt_10" "evt_11"
      "evt_12" "item_A" 1 "He" "llo" "AQA=" "AgA=" "hi" assistantItemA
      { type := "text", text := some "hi" } [1] [2]
      (by decide) (by decide) (by decide) (by decide) (by decide)
      h1 h2 h3 rfl rfl h4 h5⟩

theorem lookupRec_mapPair_id (items : List FormattedItem) (id : String)
    (it : FormattedItem)
    (h : lookupRec (items.map fun x => (x.id, x)) id = some it) :
    it.id = id := by
  induction items with
  | nil => simp [lookupRec] at h
  | cons y ys ih =>
    simp only [List.map_cons, lookupRec] at h
    by_cases hy : y.id = id
    · simp only [hy, if_true] at h
      cases h
      exact hy
    · simp only [hy, if_false] at h
      exact ih h

theorem lookupRec_mapPair_mem (items : List FormattedItem) (id : String)
    (it : FormattedItem)
    (h : lookupRec (items.map fun x => (x.id, x)) id = some it) :
    it ∈ items := by
  induction items with
  | nil => simp [lookupRec] at h
  | cons y ys ih =>
    simp only [List.map_cons, lookupRec] at h
    by_cases hy : y.id = id
    · simp only [hy, if_true] at h
      cases h
      exact List.mem_cons_self _ _
    · simp only [hy, if_false] at h
      exact List.mem_cons_of_mem y (ih h)

theorem lookupRec_mapPair_of_mem (items : List FormattedItem)
    (it : FormattedItem) (hnd : (items.map (·.id)).Nodup) (hmem : it ∈ items) :
    lookupRec (items.map fun x => (x.id, x)) it.id = some it := by
  induction items with
  | nil => simp at hmem
  | cons y ys ih =>
    simp only [List.map_cons, List.nodup_cons] at hnd
    rcases List.mem_cons.mp hmem with heq | hmem'
    · subst heq
      simp [lookupRec]
    · have hy : y.id ≠ it.id := by
        intro hcontra
        exact hnd.1 (hcontra ▸ List.mem_map_of_mem (·.id) hmem')
      simp only [List.map_cons, lookupRec, hy, if_false]
      exact ih hnd.2 hmem'

theorem lookupRec_mapPair_none (items : List FormattedItem) (id : String)
    (h : lookupRec (items.map fun x => (x.id, x)) id = none) :
    ∀ it ∈ items, it.id ≠ id := by
  induction items with
  | nil => simp
  | cons y ys ih =>
    simp only [List.map_cons, lookupRec] at h
    by_cases hy : y.id = id
    · simp [hy] at h
    · intro it hit
      rcases List.mem_cons.mp hit with heq | hmem
      · subst heq
        exact hy
      · simp only [hy, if_false] at h
        exact ih h it hmem

theorem deleteRec_eq_self_of_lookup_none {α : Type} (r : List (String × α))
    (k : String) (h : lookupRec r k = none) : deleteRec r k = r := by
  induction r with
  | nil => simp [deleteRec]
  | cons p rest ih =>
    obtain ⟨pk, pv⟩ := p
    by_cases hp : pk = k
    · simp [lookupRec, hp] at h
    · simp only [lookupRec, hp, if_false] at h
      simp [deleteRec, hp, ih h]

theorem lookupRec_mapPair_none_of_not_mem (items : List FormattedItem)
    (id : String) (h : ∀ it ∈ items, it.id ≠ id) :
    lookupRec (items.map fun x => (x.id, x)) id = none := by
  induction items with
  | nil => simp [lookupRec]
  | cons y ys ih =>
    have hy : y.id ≠ id := h y (List.mem_cons_self y ys)
    simp only [List.map_cons, lookupRec, hy, if_false]
    exact ih fun it hit => h it (List.mem_cons_of_mem y hit)

theorem deleteRec_mapPair (items : List FormattedItem) (id : String)
    (it : FormattedItem) (hnd : (items.map (·.id)).Nodup)
    (h : lookupRec (items.map fun x => (x.id, x)) id = some it) :
    deleteRec (items.map fun x => (x.id, x)) id
      = (removeFirstEq items it).map fun x => (x.id, x) := by
  induction items with
  | nil => simp [lookupRec] at h
  | cons y ys ih =>
    simp only [List.map_cons, List.nodup_cons] at hnd
    simp only [List.map_cons, lookupRec] at h
    by_cases hy : y.id = id
    · simp only [hy, if_true] at h
      have hyit : y = it := Option.some.inj h
      have hnone : lookupRec (ys.map fun x => (x.id, x)) id = none := by
        apply lookupRec_mapPair_none_of_not_mem
        intro z hz hzc
        have hmem : z.id ∈ ys.map (·.id) := List.mem_map_of_mem (·.id) hz
        rw [hzc, ← hy] at hmem
        exact hnd.1 hmem
      simp only [List.map_cons, deleteRec, hy, if_true, removeFirstEq,
        if_pos hyit]
      exact deleteRec_eq_self_of_lookup_none _ _ hnone
    · simp only [hy, if_false] at h
      have hit_id : it.id = id := lookupRec_mapPair_id ys id it h
      have hne : ¬ y = it := by
        intro hcontra
        exact hy (hcontra ▸ hit_id)
      simp only [List.map_cons, deleteRec, hy, if_false, removeFirstEq, hne,
        if_false]
      rw [ih hnd.2 h]

theorem removeFirstEq_length (items : List FormattedItem) (it : FormattedItem)
    (h : it ∈ items) : (removeFirstEq items it).length + 1 = items.length := by
  induction items with
  | nil => simp at h
  | cons y ys ih =>
    by_cases hy : y = it
    · simp [removeFirstEq, hy]
    · rcases List.mem_cons.mp h with heq | hmem
      · exact absurd heq.symm hy
      · simp only [removeFirstEq, hy, if_false, List.length_cons]
        rw [← ih hmem]

theorem removeFirstEq_sublist (items : List FormattedItem)
    (it : FormattedItem) : (removeFirstEq items it).Sublist items := by
  induction items with
  | nil => simp [removeFirstEq]
  | cons y ys ih =>
    by_cases hy : y = it
    · simp only [removeFirstEq, hy, if_true]
      exact List.sublist_cons_self _ _
    · simp only [removeFirstEq, hy, if_false]
      exact List.Sublist.cons₂ y ih

theorem stepCD_create_preserves (s : ConvState) (eid : String)
    (p : ItemPayload) (hinv : StoreInv s)
    (hfresh : lookupRec s.itemLookup p.id = none) :
    StoreInv (stepCD s (.create eid p))
      ∧ (stepCD s (.create eid p)).items.length = s.items.length + 1 := by
  have hlk := processItemCreated_itemLookup_new s p hfresh
  have hits := processItemCreated_items_new s p hfresh
  have hbid := buildCreatedItem_id s p
  have hfresh' : ∀ it ∈ s.items, it.id ≠ p.id :=
    lookupRec_mapPair_none s.items p.id (by rw [← hinv.1]; exact hfresh)
  refine ⟨⟨?_, ?_⟩, ?_⟩
  · show (processItemCreated s p).1.itemLookup
      = (processItemCreated s p).1.items.map fun x => (x.id, x)
    rw [hlk, hits, setRec_of_lookup_none _ _ _ hfresh, hinv.1]
    simp [hbid]
  · show ((processItemCreated s p).1.items.map (·.id)).Nodup
    rw [hits]
    simp only [List.map_append, List.map_cons, List.map_nil]
    rw [List.nodup_append]
    refine ⟨hinv.2, List.nodup_singleton _, ?_⟩
    intro a ha hb
    simp only [hbid, List.mem_singleton] at hb
    obtain ⟨z, hz, hza⟩ := List.mem_map.mp ha
    exact hfresh' z hz (by rw [hza, hb])
  · show (processItemCreated s p).1.items.length = s.items.length + 1
    rw [hits]
    simp

theorem stepCD_delete_preserves (s : ConvState) (eid item_id : String)
    (hinv : StoreInv s)
    (hsome : (lookupRec s.itemLookup item_id).isSome) :
    StoreInv (stepCD s (.delete eid item_id))
      ∧ (stepCD s (.delete eid item_id)).items.length + 1 = s.items.length := by
  obtain ⟨it, hit⟩ := Option.isSome_iff_exists.mp hsome
  have hit' : lookupRec (s.items.map fun x => (x.id, x)) item_id = some it := by
    rw [← hinv.1]
    exact hit
  have hitid : it.id = item_id := lookupRec_mapPair_id s.items item_id it hit'
  have hmem : it ∈ s.items := lookupRec_mapPair_mem s.items item_id it hit'
  have hstep : stepCD s (.delete eid item_id)
      = { s with
          itemLookup := deleteRec s.itemLookup it.id
          items := removeFirstEq s.items it } := by
    simp [stepCD, processItemDeleted, hit]
  rw [hstep]
  refine ⟨⟨?_, ?_⟩, ?_⟩
  · show deleteRec s.itemLookup it.id
      = (removeFirstEq s.items it).map fun x => (x.id, x)
    rw [hinv.1, hitid]
    exact deleteRec_mapPair s.items item_id it hinv.2 hit'
  · show ((removeFirstEq s.items it).map (·.id)).Nodup
    exact hinv.2.sublist
      (List.Sublist.map _ (removeFirstEq_sublist s.items it))
  · show (removeFirstEq s.items it).length + 1 = s.items.length
    exact removeFirstEq_length s.items it hmem

theorem runCD_wf : ∀ (evs : List CDEvent) (s : ConvState),
    StoreInv s → WfSeq s evs →
    ∃ s', runCD s evs = .ok s' ∧ StoreInv s'
      ∧ s'.items.length + countDeletes evs
          = s.items.length + countCreates evs := by
  intro evs
  induction evs with
  | nil =>
    intro s hinv _
    exact ⟨s, rfl, hinv, by simp [countCreates, countDeletes]⟩
  | cons e rest ih =>
    intro s hinv hwf
    cases e with
    | create eid p =>
      obtain ⟨heid, hfresh, hwf'⟩ := hwf
      have hstep := stepCD_create_preserves s eid p hinv hfresh
      obtain ⟨s', hrun, hinv', hlen⟩ :=
        ih (stepCD s (.create eid p)) hstep.1 hwf'
      refine ⟨s', ?_, hinv', ?_⟩
      · have hpe : processEvent s (CDEvent.create eid p).toServerEvent
            = .ok (processItemCreated s p) :=
          processEvent_created_eq s eid p heid
        simp only [runCD, hpe]
        exact hrun
      · simp only [countCreates, countDeletes]
        have h2 := hstep.2
        omega
    | delete eid item_id =>
      obtain ⟨heid, hsome, hwf'⟩ := hwf
      obtain ⟨it, hit⟩ := Option.isSome_iff_exists.mp hsome
      have hstep := stepCD_delete_preserves s eid item_id hinv hsome
      obtain ⟨s', hrun, hinv', hlen⟩ :=
        ih (stepCD s (.delete eid item_id)) hstep.1 hwf'
      refine ⟨s', ?_, hinv', ?_⟩
      · have hpe : processEvent s (CDEvent.delete eid item_id).toServerEvent
            = .ok
              ({ s with
                  itemLookup := deleteRec s.itemLookup it.id
                  items := removeFirstEq s.items it },
                { item := some (.formatted it) }) := by
          simp [CDEvent.toServerEvent, processEvent, ServerEvent.eventId,
            ServerEvent.typeName, heid, processItemDeleted, hit]
        have hstepeq : stepCD s (.delete eid item_id)
            = { s with
                itemLookup := deleteRec s.itemLookup it.id
                items := removeFirstEq s.items it } := by
          simp [stepCD, processItemDeleted, hit]
        rw [hstepeq] at hrun
        simp only [runCD, hpe]
        exact hrun
      · simp only [countCreates, countDeletes]
        have h2 := hstep.2
        omega

/-!
## Claim C3 — create/delete sequences keep the store consistent
-/

/-- C3: for every sequence of item-create events with fresh (pairwise
distinct) ids interleaved with item-delete events addressing currently stored
ids, processing from the empty store succeeds, the item list length equals
the number of creates minus the number of deletes, and the id lookup contains
an id exactly when an item with that id is a member of the list — mapping it
to that same list member. -/
theorem create_delete_sequences_keep_store_consistent
    (f : Nat) (evs : List CDEvent) (hwf : WfSeq (initConvState f) evs) :
    ∃ s', runCD (initConvState f) evs = .ok s'
      ∧ countDeletes evs ≤ countCreates evs
      ∧ s'.items.length = countCreates evs - countDeletes evs
      ∧ (∀ id it, lookupRec s'.itemLookup id = some it →
          it ∈ s'.items ∧ it.id = id)
      ∧ (∀ it, it ∈ s'.items → lookupRec s'.itemLookup it.id = some it) := by
  have hinv0 : StoreInv (initConvState f) := ⟨rfl, List.nodup_nil⟩
  obtain ⟨s', hrun, hinv', hlen⟩ := runCD_wf evs (initConvState f) hinv0 hwf
  have hlen0 : s'.items.length + countDeletes evs = countCreates evs := by
    simpa [initConvState] using hlen
  refine ⟨s', hrun, by omega, by omega, ?_, ?_⟩
  · intro id it hlk
    have hlk' : lookupRec (s'.items.map fun x => (x.id, x)) id = some it := by
      rw [← hinv'.1]
      exact hlk
    exact ⟨lookupRec_mapPair_mem _ _ _ hlk', lookupRec_mapPair_id _ _ _ hlk'⟩
  · intro it hmem
    rw [hinv'.1]
    exact lookupRec_mapPair_of_mem s'.items it hinv'.2 hmem

/-- C3 witness: the sequence create `c`, create `d`, delete `c` is
well-formed and ends with a one-item consistent store
(`2 creates - 1 delete`). -/
theorem create_delete_sequences_keep_store_consistent_witness :
    WfSeq (initConvState 24000) cdSeq
      ∧ ∃ s', runCD (initConvState 24000) cdSeq = .ok s'
          ∧ countDeletes cdSeq ≤ countCreates cdSeq
          ∧ s'.items.length = countCreates cdSeq - countDeletes cdSeq
          ∧ (∀ id it, lookupRec s'.itemLookup id = some it →
              it ∈ s'.items ∧ it.id = id)
          ∧ (∀ it, it ∈ s'.items →
              lookupRec s'.itemLookup it.id = some it) := by
  have hwf : WfSeq (initConvState 24000) cdSeq := by
    show WfSeq (initConvState 24000)
      [.create "e1" payloadC, .create "e2" payloadD, .delete "e3" "c"]
    exact ⟨by decide, rfl, by decide, rfl, by decide, rfl, trivial⟩
  exact ⟨hwf,
    create_delete_sequences_keep_store_consistent 24000 cdSeq hwf⟩
